import Mathlib

/-!
# Access rule resource of the FMC provider

A shallow embedding of `fmc/resource_access_rules.go`: the schema of the
`fmc_access_rules` resource (validators and state functions of `action` and
`syslog_severity`), the encoder inside `resourceAccessRulesCreate`, the decoder
inside `resourceAccessRulesRead`, and the four lifecycle operations.

Conventions of the embedding:

* Go `error` values are modelled by their message (`GoError`).
* A Go run-time panic (failed type assertion, index out of range, `Get` on a
  key that the schema does not have) is the result `none` of an `Option`.
* The elements of a list that `d.Get` returns are interface values (`Elem`):
  strings, or nil for an element configured as the empty string, on which the
  assertion `.(string)` panics.
* The remote client is a parameter: three functions over an abstract remote
  state, each returning its result together with the next remote state.
* `schema.ResourceData` is a record with one field per schema attribute plus the
  identifier; `Get`, `GetOk` and `Set` are keyed by the attribute name, as in
  the source.
* The Unicode tables of the Go standard library, which `strings.ToUpper` and the
  `%q` verb consult for runes outside ASCII, are a parameter (`UnicodeTables`).
-/

namespace Fmc

/-! ## Strings: `strings.ToUpper`, `%q`, `%v` -/

/-- The part of the Go standard library's Unicode data that the program depends
on: the upper-case mapping and the printable predicate.  Both are consulted for
runes outside ASCII only. -/
structure UnicodeTables where
  toUpper : Char → Char
  isPrint : Char → Bool

/-- Upper-case mapping of one rune, as `unicode.ToUpper`: for an ASCII rune the
letters `a`..`z` are moved down by `'a' - 'A'`, every other ASCII rune is kept;
a rune above ASCII is looked up in the Unicode tables. -/
def toUpperRune (t : UnicodeTables) (c : Char) : Char :=
  if c.toNat ≤ 127 then
    if 'a'.toNat ≤ c.toNat ∧ c.toNat ≤ 'z'.toNat then Char.ofNat (c.toNat - ('a'.toNat - 'A'.toNat)) else c
  else t.toUpper c

/-- The function `strings.ToUpper`: every rune is replaced by its upper-case
mapping. -/
def ToUpper (t : UnicodeTables) (s : String) : String :=
  String.mk (s.data.map (toUpperRune t))

/-- The digits used by the escapes of `strconv.Quote`. -/
def lowerhex : List Char :=
  ['0', '1', '2', '3', '4', '5', '6', '7', '8', '9', 'a', 'b', 'c', 'd', 'e', 'f']

/-- One lower-case hexadecimal digit (the value is taken modulo 16). -/
def hexDigit (n : Nat) : Char :=
  lowerhex.getD (n % 16) '0'

/-- The predicate `strconv.IsPrint` on a rune: inside ASCII the printable runes
are the space up to the tilde; outside ASCII the Unicode tables decide. -/
def isPrintRune (t : UnicodeTables) (c : Char) : Bool :=
  if c.toNat ≤ 127 then decide (32 ≤ c.toNat ∧ c.toNat < 127) else t.isPrint c

/-- One rune as written by `strconv.Quote` (double quote as the quote
character): the quote and the backslash are backslashed, printable runes are
kept, the usual control characters get their short escape and everything else
a hexadecimal escape. -/
def appendEscapedRune (t : UnicodeTables) (c : Char) : List Char :=
  if c = '"' ∨ c = '\\' then ['\\', c]
  else if isPrintRune t c then [c]
  else if c.toNat = 7 then ['\\', 'a']
  else if c.toNat = 8 then ['\\', 'b']
  else if c.toNat = 12 then ['\\', 'f']
  else if c = '\n' then ['\\', 'n']
  else if c = '\r' then ['\\', 'r']
  else if c = '\t' then ['\\', 't']
  else if c.toNat = 11 then ['\\', 'v']
  else if c.toNat < 32 ∨ c.toNat = 127 then
    ['\\', 'x', hexDigit (c.toNat / 16), hexDigit c.toNat]
  else if c.toNat < 65536 then
    ['\\', 'u', hexDigit (c.toNat / 4096), hexDigit (c.toNat / 256),
      hexDigit (c.toNat / 16), hexDigit c.toNat]
  else
    ['\\', 'U', hexDigit (c.toNat / 268435456), hexDigit (c.toNat / 16777216),
      hexDigit (c.toNat / 1048576), hexDigit (c.toNat / 65536),
      hexDigit (c.toNat / 4096), hexDigit (c.toNat / 256),
      hexDigit (c.toNat / 16), hexDigit c.toNat]

/-- The verb `%q` applied to a string: `strconv.Quote`. -/
def Quote (t : UnicodeTables) (s : String) : String :=
  String.mk ('"' :: (s.data.flatMap (appendEscapedRune t) ++ ['"']))

/-- The verb `%v` applied to a slice of strings: the elements separated by one
space, inside square brackets. -/
def formatStrings (l : List String) : String :=
  "[" ++ " ".intercalate l ++ "]"

/-! ## Errors and diagnostics -/

/-- A Go `error`, identified with its message. -/
structure GoError where
  message : String
deriving DecidableEq, Repr

/-- The method `Error()` of an error. -/
def GoError.Error (e : GoError) : String := e.message

/-- The function `fmt.Errorf("%q must be in %v, got: %q", key, allowedValues, v)`
of the two validators. -/
def validationErrorf (t : UnicodeTables) (key : String) (allowedValues : List String)
    (v : String) : GoError :=
  { message := Quote t key ++ " must be in " ++ formatStrings allowedValues ++ ", got: " ++ Quote t v }

/-- Severity of a diagnostic (`diag.Error`, `diag.Warning`). -/
inductive Severity where
  | Error
  | Warning
deriving DecidableEq, Repr

/-- The struct `diag.Diagnostic`, restricted to the fields the program fills. -/
structure Diagnostic where
  Severity : Severity
  Summary : String
  Detail : String
deriving DecidableEq, Repr

/-- The type `diag.Diagnostics`; the nil slice is the empty list. -/
abbrev Diagnostics := List Diagnostic

/-- The function `returnWithDiag`: one error diagnostic is appended. -/
def returnWithDiag (diags : Diagnostics) (err : GoError) : Diagnostics :=
  diags ++ [{ Severity := Severity.Error, Summary := "Error in access rule", Detail := err.Error }]

/-! ## Schema: validators and state functions -/

/-- The allow-list inside the `ValidateFunc` of `action`. -/
def actionAllowedValues : List String :=
  ["ALLOW", "TRUST", "BLOCK", "MONITOR", "BLOCK_RESET", "BLOCK_INTERACTIVE", "BLOCK_RESET_INTERACTIVE"]

/-- The allow-list inside the `ValidateFunc` of `syslog_severity`. -/
def syslogSeverityAllowedValues : List String :=
  ["ALERT", "CRIT", "DEBUG", "EMERG", "ERR", "INFO", "NOTICE", "WARNING"]

/-- The loop `for _, allowed := range allowedValues` of a validator, on the
remaining allow-list `rest`: the named results `(warns, errs)` are returned
untouched (both nil) at the first match, and one error built from the whole
allow-list is appended to `errs` when the loop runs out. -/
def validateLoop (t : UnicodeTables) (key v : String) (allowedValues : List String) :
    List String → List String × List GoError
  | [] => ([], [] ++ [validationErrorf t key allowedValues v])
  | allowed :: rest => if v = allowed then ([], []) else validateLoop t key v allowedValues rest

/-- The `ValidateFunc` of the attribute `action`. -/
def actionValidateFunc (t : UnicodeTables) (val key : String) : List String × List GoError :=
  let v := ToUpper t val
  let allowedValues := actionAllowedValues
  validateLoop t key v allowedValues allowedValues

/-- The `StateFunc` of the attribute `action`. -/
def actionStateFunc (t : UnicodeTables) (val : String) : String :=
  ToUpper t val

/-- The `ValidateFunc` of the attribute `syslog_severity`. -/
def syslogSeverityValidateFunc (t : UnicodeTables) (val key : String) :
    List String × List GoError :=
  let v := ToUpper t val
  let allowedValues := syslogSeverityAllowedValues
  validateLoop t key v allowedValues allowedValues

/-- The `StateFunc` of the attribute `syslog_severity`. -/
def syslogSeverityStateFunc (t : UnicodeTables) (val : String) : String :=
  ToUpper t val

/-! ## Remote representation -/

/-- Modelled from the spec: the declaration of `AccessRuleSubConfig` is outside
this file.  An object reference as it is written: the identifier (the only field
the encoder fills) and the descriptive type tag, which the encoder leaves at its
zero value. -/
structure AccessRuleSubConfig where
  ID : String
  Type_ : String := ""
deriving DecidableEq, Repr

/-- Modelled from the spec: the declaration of `AccessRuleSubConfigs` is outside
this file; the encoder fills its `Objects`. -/
structure AccessRuleSubConfigs where
  Objects : List AccessRuleSubConfig
deriving DecidableEq, Repr

/-- Modelled from the spec: the declaration of `AccessRule` is outside this
file; the fields are those of the composite literal in
`resourceAccessRulesCreate`. -/
structure AccessRule where
  Name : String
  Type_ : String
  Action : String
  Syslogseverity : String
  Enablesyslog : Bool
  Enabled : Bool
  Sendeventstofmc : Bool
  Logfiles : Bool
  Logbegin : Bool
  Logend : Bool
  Sourcezones : AccessRuleSubConfigs
  Destinationzones : AccessRuleSubConfigs
  Sourcenetworks : AccessRuleSubConfigs
  Destinationnetworks : AccessRuleSubConfigs
  Sourceports : AccessRuleSubConfigs
  Destinationports : AccessRuleSubConfigs
  Urls : AccessRuleSubConfigs
  Ipspolicy : AccessRuleSubConfig
  Filepolicy : AccessRuleSubConfig
  Syslogconfig : AccessRuleSubConfig
  Newcomments : List String
deriving DecidableEq, Repr

/-- Modelled from the spec: the declaration of `AccessRuleResponseObject` is
outside this file.  An object reference as the remote service returns it: the
identifier (the only field the decoder reads) and the additional descriptive
attributes. -/
structure AccessRuleResponseObject where
  ID : String
  Name : String := ""
  Type_ : String := ""
deriving DecidableEq, Repr

/-- Modelled from the spec: the declaration of the list wrapper inside a remote
response is outside this file; the decoder reads its `Objects`. -/
structure AccessRuleResponseObjects where
  Objects : List AccessRuleResponseObject
deriving DecidableEq, Repr

/-- Modelled from the spec: the declaration of the value returned by
`CreateAccessRule` and `GetAccessRule` is outside this file.  The fields are
those that `resourceAccessRulesCreate` and `resourceAccessRulesRead` read (`ID`,
the scalars, the seven reference lists) and the three singular references that
the spec gives the remote access rule. -/
structure AccessRuleResponse where
  ID : String
  Name : String
  Type_ : String
  Action : String
  Syslogseverity : String
  Enablesyslog : Bool
  Enabled : Bool
  Sendeventstofmc : Bool
  Logfiles : Bool
  Logbegin : Bool
  Logend : Bool
  Sourcezones : AccessRuleResponseObjects
  Destinationzones : AccessRuleResponseObjects
  Sourcenetworks : AccessRuleResponseObjects
  Destinationnetworks : AccessRuleResponseObjects
  Sourceports : AccessRuleResponseObjects
  Destinationports : AccessRuleResponseObjects
  Urls : AccessRuleResponseObjects
  Ipspolicy : AccessRuleResponseObject
  Filepolicy : AccessRuleResponseObject
  Syslogconfig : AccessRuleResponseObject
deriving DecidableEq, Repr

/-- Modelled from the spec: the three methods of `Client` that this file calls
(their bodies are outside this file), over an abstract remote state.  A call
returns its Go result and the remote state after the call. -/
structure Client (σ : Type) where
  CreateAccessRule : String → AccessRule → σ → Except GoError AccessRuleResponse × σ
  GetAccessRule : String → String → σ → Except GoError AccessRuleResponse × σ
  DeleteAccessRule : String → String → σ → Option GoError × σ

/-- The package variable `access_policies_type`. -/
def access_policies_type : String := "AccessRule"

/-! ## Declarative record: `schema.ResourceData` under the schema of the resource -/

/-- An element of the `[]interface{}` that `d.Get` returns for a list of strings:
a string, or nil.  For a resource that is being created the SDK records no
element for a configured empty string, and `d.Get` hands that element back as
the nil interface; an element written by `d.Set` is always a string. -/
inductive Elem where
  | nil
  | string (s : String)
deriving DecidableEq, Repr

/-- The type assertion `.(string)` on an element; `none` is the panic of the
assertion on nil. -/
def Elem.assertString : Elem → Option String
  | Elem.nil => none
  | Elem.string s => some s

/-- An element as the SDK's writer records it: nil is written as the empty
string. -/
def Elem.recorded : Elem → Elem
  | Elem.nil => Elem.string ""
  | Elem.string s => Elem.string s

/-- A dynamically typed value (`interface{}`): a string, a bool, the
`[]interface{}` that `d.Get` returns for a `TypeList` of strings, or the
`[]string` that the program passes to `d.Set`. -/
inductive Value where
  | string (s : String)
  | bool (b : Bool)
  | list (l : List Elem)
  | strings (l : List String)
deriving DecidableEq, Repr

/-- The type assertion `.(string)`; `none` is the panic of a failed assertion. -/
def Value.assertString : Value → Option String
  | Value.string s => some s
  | _ => none

/-- The type assertion `.(bool)`. -/
def Value.assertBool : Value → Option Bool
  | Value.bool b => some b
  | _ => none

/-- The type assertion `.([]interface{})`. -/
def Value.assertList : Value → Option (List Elem)
  | Value.list l => some l
  | _ => none

/-- Whether a value is the zero value of its type. -/
def Value.isZero : Value → Bool
  | Value.string s => decide (s = "")
  | Value.bool b => !b
  | Value.list l => l.isEmpty
  | Value.strings l => l.isEmpty

/-- The resource data of one access rule: the identifier and one field for each
attribute of the `Schema` map of `resourceAccessRules`.  A scalar attribute that
was never written holds its zero value; a list attribute records in addition
whether a list is held at all (`none`: the attribute is absent); the elements
of a held list are those that `d.Get` returns, so a configured empty string is
the element `Elem.nil`. -/
structure ResourceData where
  id : String
  acp : String
  name : String
  type : String
  action : String
  syslog_severity : String
  enable_syslog : Bool
  enabled : Bool
  send_events_to_fmc : Bool
  log_files : Bool
  log_begin : Bool
  log_end : Bool
  source_zones : Option (List Elem)
  destination_zones : Option (List Elem)
  source_networks : Option (List Elem)
  destination_networks : Option (List Elem)
  source_ports : Option (List Elem)
  destination_ports : Option (List Elem)
  urls : Option (List Elem)
  ips_policy : String
  file_policy : String
  syslog_config : String
  comments : Option (List Elem)
deriving DecidableEq, Repr

/-- The method `d.Id()`. -/
def ResourceData.Id (d : ResourceData) : String := d.id

/-- The method `d.SetId(v)`. -/
def ResourceData.SetId (d : ResourceData) (v : String) : ResourceData :=
  { d with id := v }

/-- The method `d.Get(key)`: the value of the attribute, the zero value of its
type when it is absent; `none` (a panic) for a key outside the schema. -/
def ResourceData.Get (d : ResourceData) (key : String) : Option Value :=
  match key with
  | "acp" => some (Value.string d.acp)
  | "name" => some (Value.string d.name)
  | "type" => some (Value.string d.type)
  | "action" => some (Value.string d.action)
  | "syslog_severity" => some (Value.string d.syslog_severity)
  | "enable_syslog" => some (Value.bool d.enable_syslog)
  | "enabled" => some (Value.bool d.enabled)
  | "send_events_to_fmc" => some (Value.bool d.send_events_to_fmc)
  | "log_files" => some (Value.bool d.log_files)
  | "log_begin" => some (Value.bool d.log_begin)
  | "log_end" => some (Value.bool d.log_end)
  | "source_zones" => some (Value.list (d.source_zones.getD []))
  | "destination_zones" => some (Value.list (d.destination_zones.getD []))
  | "source_networks" => some (Value.list (d.source_networks.getD []))
  | "destination_networks" => some (Value.list (d.destination_networks.getD []))
  | "source_ports" => some (Value.list (d.source_ports.getD []))
  | "destination_ports" => some (Value.list (d.destination_ports.getD []))
  | "urls" => some (Value.list (d.urls.getD []))
  | "ips_policy" => some (Value.string d.ips_policy)
  | "file_policy" => some (Value.string d.file_policy)
  | "syslog_config" => some (Value.string d.syslog_config)
  | "comments" => some (Value.list (d.comments.getD []))
  | _ => none

/-- The method `d.GetOk(key)`: the value together with the flag that it is set
to something other than the zero value of its type. -/
def ResourceData.GetOk (d : ResourceData) (key : String) : Option (Value × Bool) :=
  (d.Get key).map (fun v => (v, !v.isZero))

/-- The method `d.Set(key, value)`: the attribute is overwritten when the key is
in the schema and the value has the type of the attribute (for a list attribute
a `[]string`, every element of which is recorded as a string, or a
`[]interface{}`); otherwise an error is returned and the record is left as it
was.  The value is stored as given: no `StateFunc` is applied. -/
def ResourceData.Set (d : ResourceData) (key : String) (value : Value) :
    Except GoError ResourceData :=
  match key, value with
  | "acp", Value.string v => Except.ok { d with acp := v }
  | "name", Value.string v => Except.ok { d with name := v }
  | "type", Value.string v => Except.ok { d with type := v }
  | "action", Value.string v => Except.ok { d with action := v }
  | "syslog_severity", Value.string v => Except.ok { d with syslog_severity := v }
  | "enable_syslog", Value.bool v => Except.ok { d with enable_syslog := v }
  | "enabled", Value.bool v => Except.ok { d with enabled := v }
  | "send_events_to_fmc", Value.bool v => Except.ok { d with send_events_to_fmc := v }
  | "log_files", Value.bool v => Except.ok { d with log_files := v }
  | "log_begin", Value.bool v => Except.ok { d with log_begin := v }
  | "log_end", Value.bool v => Except.ok { d with log_end := v }
  | "source_zones", Value.strings v => Except.ok { d with source_zones := some (v.map Elem.string) }
  | "source_zones", Value.list v => Except.ok { d with source_zones := some (v.map Elem.recorded) }
  | "destination_zones", Value.strings v => Except.ok { d with destination_zones := some (v.map Elem.string) }
  | "destination_zones", Value.list v => Except.ok { d with destination_zones := some (v.map Elem.recorded) }
  | "source_networks", Value.strings v => Except.ok { d with source_networks := some (v.map Elem.string) }
  | "source_networks", Value.list v => Except.ok { d with source_networks := some (v.map Elem.recorded) }
  | "destination_networks", Value.strings v => Except.ok { d with destination_networks := some (v.map Elem.string) }
  | "destination_networks", Value.list v => Except.ok { d with destination_networks := some (v.map Elem.recorded) }
  | "source_ports", Value.strings v => Except.ok { d with source_ports := some (v.map Elem.string) }
  | "source_ports", Value.list v => Except.ok { d with source_ports := some (v.map Elem.recorded) }
  | "destination_ports", Value.strings v => Except.ok { d with destination_ports := some (v.map Elem.string) }
  | "destination_ports", Value.list v => Except.ok { d with destination_ports := some (v.map Elem.recorded) }
  | "urls", Value.strings v => Except.ok { d with urls := some (v.map Elem.string) }
  | "urls", Value.list v => Except.ok { d with urls := some (v.map Elem.recorded) }
  | "ips_policy", Value.string v => Except.ok { d with ips_policy := v }
  | "file_policy", Value.string v => Except.ok { d with file_policy := v }
  | "syslog_config", Value.string v => Except.ok { d with syslog_config := v }
  | "comments", Value.strings v => Except.ok { d with comments := some (v.map Elem.string) }
  | "comments", Value.list v => Except.ok { d with comments := some (v.map Elem.recorded) }
  | _, _ => Except.error { message := "cannot set " ++ key }

/-- The expression `d.Get(key).(string)`. -/
def ResourceData.GetString (d : ResourceData) (key : String) : Option String :=
  (d.Get key).bind Value.assertString

/-- The expression `d.Get(key).(bool)`. -/
def ResourceData.GetBool (d : ResourceData) (key : String) : Option Bool :=
  (d.Get key).bind Value.assertBool

/-- The expression `d.Get(key).([]interface{})`. -/
def ResourceData.GetList (d : ResourceData) (key : String) : Option (List Elem) :=
  (d.Get key).bind Value.assertList

/-! ## Encoder: `resourceAccessRulesCreate` up to the remote call -/

/-- The seven local slice variables of `resourceAccessRulesCreate`. -/
structure CreateVars where
  sourceZones : List AccessRuleSubConfig
  destinationZones : List AccessRuleSubConfig
  sourceNetworks : List AccessRuleSubConfig
  destinationNetworks : List AccessRuleSubConfig
  sourcePorts : List AccessRuleSubConfig
  destinationPorts : List AccessRuleSubConfig
  urls : List AccessRuleSubConfig
deriving DecidableEq, Repr

/-- The declaration `var sourceZones, ..., urls []AccessRuleSubConfig`: seven nil
slices. -/
def CreateVars.nil : CreateVars :=
  { sourceZones := [], destinationZones := [], sourceNetworks := [], destinationNetworks := [],
    sourcePorts := [], destinationPorts := [], urls := [] }

/-- A pointer to one of the seven local slice variables. -/
inductive VarPtr where
  | sourceZones
  | destinationZones
  | sourceNetworks
  | destinationNetworks
  | sourcePorts
  | destinationPorts
  | urls
deriving DecidableEq, Repr

/-- Reading through a pointer: `*p`. -/
def CreateVars.deref (vars : CreateVars) : VarPtr → List AccessRuleSubConfig
  | VarPtr.sourceZones => vars.sourceZones
  | VarPtr.destinationZones => vars.destinationZones
  | VarPtr.sourceNetworks => vars.sourceNetworks
  | VarPtr.destinationNetworks => vars.destinationNetworks
  | VarPtr.sourcePorts => vars.sourcePorts
  | VarPtr.destinationPorts => vars.destinationPorts
  | VarPtr.urls => vars.urls

/-- Writing through a pointer: `*p = v`. -/
def CreateVars.assign (vars : CreateVars) (p : VarPtr) (v : List AccessRuleSubConfig) :
    CreateVars :=
  match p with
  | VarPtr.sourceZones => { vars with sourceZones := v }
  | VarPtr.destinationZones => { vars with destinationZones := v }
  | VarPtr.sourceNetworks => { vars with sourceNetworks := v }
  | VarPtr.destinationNetworks => { vars with destinationNetworks := v }
  | VarPtr.sourcePorts => { vars with sourcePorts := v }
  | VarPtr.destinationPorts => { vars with destinationPorts := v }
  | VarPtr.urls => { vars with urls := v }

/-- The slice `dynamicObjects` of `resourceAccessRulesCreate`. -/
def createDynamicObjects : List VarPtr :=
  [VarPtr.sourceZones, VarPtr.destinationZones, VarPtr.sourceNetworks,
    VarPtr.destinationNetworks, VarPtr.sourcePorts, VarPtr.destinationPorts, VarPtr.urls]

/-- The slice of attribute names that the loop of `resourceAccessRulesCreate`
ranges over. -/
def createObjTypes : List String :=
  ["source_zones", "destination_zones", "source_networks", "destination_networks",
    "source_ports", "destination_ports", "urls"]

/-- The inner loop `for _, ent := range inputEntries` of
`resourceAccessRulesCreate`, at index `i` of the outer loop: each entry is
asserted to be a string (`ent.(string)`) and appended, as a reference holding
only its `ID`, to the variable that `dynamicObjects[i]` points to.  The result
is `none` when the index is out of range or an entry is nil. -/
def createEntries (i : Nat) : List Elem → CreateVars → Option CreateVars
  | [], vars => some vars
  | ent :: rest, vars =>
    match createDynamicObjects[i]?, ent.assertString with
    | some p, some id => createEntries i rest (vars.assign p (vars.deref p ++ [{ ID := id }]))
    | _, _ => none

/-- The outer loop `for i, objType := range []string{...}` of
`resourceAccessRulesCreate`, on the remaining index/name pairs. -/
def createLoop (d : ResourceData) : List (Nat × String) → CreateVars → Option CreateVars
  | [], vars => some vars
  | (i, objType) :: rest, vars =>
    match d.GetOk objType with
    | none => none
    | some (inputEntries, ok) =>
      if ok then
        match inputEntries.assertList with
        | none => none
        | some ents =>
          match createEntries i ents vars with
          | none => none
          | some vars1 => createLoop d rest vars1
      else createLoop d rest vars

/-- The loop `for _, comment := range ...` of `resourceAccessRulesCreate`, on the
remaining entries: each entry is asserted to be a string (`comment.(string)`)
and appended to `comments`.  The result is `none` when an entry is nil. -/
def commentsLoop : List Elem → List String → Option (List String)
  | [], comments => some comments
  | comment :: rest, comments =>
    match comment.assertString with
    | none => none
    | some c => commentsLoop rest (comments ++ [c])

/-- The slice `comments` of `resourceAccessRulesCreate`: it starts as the empty
slice and receives the entries of `d.Get("comments")`. -/
def createComments (d : ResourceData) : Option (List String) :=
  (d.GetList "comments").bind (fun entries => commentsLoop entries [])

/-- The encoder: lines 172 to 231 of `resourceAccessRulesCreate`, that is the
pair of the policy identifier and the `AccessRule` handed to
`c.CreateAccessRule`.  The result is `none` when one of the evaluated
expressions panics. -/
def createRequest (t : UnicodeTables) (d : ResourceData) : Option (String × AccessRule) :=
  match createLoop d createObjTypes.enum CreateVars.nil, createComments d,
    d.GetString "acp", d.GetString "name", d.GetString "action",
    d.GetString "syslog_severity", d.GetBool "enable_syslog", d.GetBool "enabled",
    d.GetBool "send_events_to_fmc", d.GetBool "log_files", d.GetBool "log_begin",
    d.GetBool "log_end", d.GetString "ips_policy", d.GetString "file_policy",
    d.GetString "syslog_config" with
  | some vars, some comments, some acp, some name, some action, some syslogSeverity,
    some enableSyslog, some enabled, some sendEventsToFmc, some logFiles, some logBegin,
    some logEnd, some ipsPolicy, some filePolicy, some syslogConfig =>
    some (acp,
      { Name := name
        Type_ := access_policies_type
        Action := ToUpper t action
        Syslogseverity := ToUpper t syslogSeverity
        Enablesyslog := enableSyslog
        Enabled := enabled
        Sendeventstofmc := sendEventsToFmc
        Logfiles := logFiles
        Logbegin := logBegin
        Logend := logEnd
        Sourcezones := { Objects := vars.sourceZones }
        Destinationzones := { Objects := vars.destinationZones }
        Sourcenetworks := { Objects := vars.sourceNetworks }
        Destinationnetworks := { Objects := vars.destinationNetworks }
        Sourceports := { Objects := vars.sourcePorts }
        Destinationports := { Objects := vars.destinationPorts }
        Urls := { Objects := vars.urls }
        Ipspolicy := { ID := ipsPolicy }
        Filepolicy := { ID := filePolicy }
        Syslogconfig := { ID := syslogConfig }
        Newcomments := comments })
  | _, _, _, _, _, _, _, _, _, _, _, _, _, _, _ => none

/-! ## Decoder: `resourceAccessRulesRead` after the remote call -/

/-- The slice `dynamicObjectNames` of `resourceAccessRulesRead`. -/
def dynamicObjectNames : List String :=
  ["source_zones", "destination_zones", "source_networks", "destination_networks",
    "source_ports", "destination_ports", "urls"]

/-- The slice `dynamicObjects` of `resourceAccessRulesRead`: the seven `Objects`
lists of the fetched item (the pointers are only read through). -/
def readDynamicObjects (item : AccessRuleResponse) : List (List AccessRuleResponseObject) :=
  [item.Sourcezones.Objects, item.Destinationzones.Objects, item.Sourcenetworks.Objects,
    item.Destinationnetworks.Objects, item.Sourceports.Objects, item.Destinationports.Objects,
    item.Urls.Objects]

/-- The inner loop of `resourceAccessRulesRead`: `response` starts as
`make([]string, 0)` and receives the `ID` of every object. -/
def readResponse (objs : List AccessRuleResponseObject) : List String :=
  objs.foldl (fun response obj => response ++ [obj.ID]) []

/-- The loop `for i, objs := range dynamicObjects` of `resourceAccessRulesRead`,
on the remaining index/list pairs; `response` is a `[]string`.  The result is the error of the first failing
`d.Set`, if any, and the record as it stands when the loop is left. -/
def readLoop : List (Nat × List AccessRuleResponseObject) → ResourceData →
    Option (Option GoError × ResourceData)
  | [], d => some (none, d)
  | (i, objs) :: rest, d =>
    let response := readResponse objs
    match dynamicObjectNames[i]? with
    | none => none
    | some objName =>
      match d.Set objName (Value.strings response) with
      | Except.error err => some (some err, d)
      | Except.ok d1 => readLoop rest d1

/-- The ten scalar `d.Set` calls of `resourceAccessRulesRead`, in source order,
as pairs of key and value. -/
def readScalars (item : AccessRuleResponse) : List (String × Value) :=
  [("name", Value.string item.Name),
   ("type", Value.string item.Type_),
   ("action", Value.string item.Action),
   ("syslog_severity", Value.string item.Syslogseverity),
   ("enable_syslog", Value.bool item.Enablesyslog),
   ("enabled", Value.bool item.Enabled),
   ("send_events_to_fmc", Value.bool item.Sendeventstofmc),
   ("log_files", Value.bool item.Logfiles),
   ("log_begin", Value.bool item.Logbegin),
   ("log_end", Value.bool item.Logend)]

/-- A run of statements `if err := d.Set(k, v); err != nil { return ... }`: the
error of the first failing `d.Set`, if any, and the record as it stands then. -/
def setAll : List (String × Value) → ResourceData → Option GoError × ResourceData
  | [], d => (none, d)
  | (key, value) :: rest, d =>
    match d.Set key value with
    | Except.error err => (some err, d)
    | Except.ok d1 => setAll rest d1

/-- The decoder: lines 258 to 313 of `resourceAccessRulesRead`, which write the
fetched item into the record. -/
def readDecode (item : AccessRuleResponse) (d : ResourceData) :
    Option (Diagnostics × ResourceData) :=
  let diags : Diagnostics := []
  match setAll (readScalars item) d with
  | (some err, d1) => some (returnWithDiag diags err, d1)
  | (none, d1) =>
    match readLoop (readDynamicObjects item).enum d1 with
    | none => none
    | some (some err, d2) => some (returnWithDiag diags err, d2)
    | some (none, d2) => some (diags, d2)

/-! ## Lifecycle operations -/

/-- The function `resourceAccessRulesRead`.  The result is the returned
diagnostics, the record after the call and the remote state after the call. -/
def resourceAccessRulesRead {σ : Type} (c : Client σ) (d : ResourceData) (s : σ) :
    Option (Diagnostics × ResourceData × σ) :=
  let diags : Diagnostics := []
  match d.GetString "acp" with
  | none => none
  | some acp =>
    match c.GetAccessRule acp d.Id s with
    | (Except.error err, s1) => some (returnWithDiag diags err, d, s1)
    | (Except.ok item, s1) =>
      match readDecode item d with
      | none => none
      | some (ds, d1) => some (ds, d1, s1)

/-- The function `resourceAccessRulesCreate`. -/
def resourceAccessRulesCreate {σ : Type} (t : UnicodeTables) (c : Client σ) (d : ResourceData)
    (s : σ) : Option (Diagnostics × ResourceData × σ) :=
  let diags : Diagnostics := []
  match createRequest t d with
  | none => none
  | some (acp, rule) =>
    match c.CreateAccessRule acp rule s with
    | (Except.error err, s1) => some (returnWithDiag diags err, d, s1)
    | (Except.ok res, s1) => resourceAccessRulesRead c (d.SetId res.ID) s1

/-- The function `resourceAccessRulesUpdate`: neither the record nor the client
is used. -/
def resourceAccessRulesUpdate {σ : Type} (_c : Client σ) (d : ResourceData) (s : σ) :
    Diagnostics × ResourceData × σ :=
  ([{ Severity := Severity.Error, Summary := "Error in access rule",
      Detail := GoError.Error { message := "update not implemented" } }], d, s)

/-- The function `resourceAccessRulesDelete`. -/
def resourceAccessRulesDelete {σ : Type} (c : Client σ) (d : ResourceData) (s : σ) :
    Option (Diagnostics × ResourceData × σ) :=
  let diags : Diagnostics := []
  match d.GetString "acp" with
  | none => none
  | some acp =>
    match c.DeleteAccessRule acp d.Id s with
    | (some err, s1) => some (returnWithDiag diags err, d, s1)
    | (none, s1) => some (diags, d.SetId "", s1)

/-! ## Relating what is written to what is returned, and test clients -/

/-- The identifiers of a list of returned references. -/
def responseIDs (objs : List AccessRuleResponseObject) : List String :=
  objs.map (fun obj => obj.ID)

/-- The identifiers of a list of written references. -/
def subConfigIDs (objs : List AccessRuleSubConfig) : List String :=
  objs.map (fun obj => obj.ID)

/-- The references that hold exactly the given identifiers and nothing else. -/
def subConfigsOf (ids : List String) : List AccessRuleSubConfig :=
  ids.map (fun ent => { ID := ent })

/-- A returned item carries, in each of its seven reference lists, the same
identifiers in the same order as the written rule; the descriptive attributes of
the returned references are free. -/
def SameReferenceLists (rule : AccessRule) (item : AccessRuleResponse) : Prop :=
  responseIDs item.Sourcezones.Objects = subConfigIDs rule.Sourcezones.Objects ∧
  responseIDs item.Destinationzones.Objects = subConfigIDs rule.Destinationzones.Objects ∧
  responseIDs item.Sourcenetworks.Objects = subConfigIDs rule.Sourcenetworks.Objects ∧
  responseIDs item.Destinationnetworks.Objects = subConfigIDs rule.Destinationnetworks.Objects ∧
  responseIDs item.Sourceports.Objects = subConfigIDs rule.Sourceports.Objects ∧
  responseIDs item.Destinationports.Objects = subConfigIDs rule.Destinationports.Objects ∧
  responseIDs item.Urls.Objects = subConfigIDs rule.Urls.Objects

/-- A returned item carries the same scalars as the written rule. -/
def SameScalars (rule : AccessRule) (item : AccessRuleResponse) : Prop :=
  item.Name = rule.Name ∧ item.Type_ = rule.Type_ ∧ item.Action = rule.Action ∧
  item.Syslogseverity = rule.Syslogseverity ∧ item.Enablesyslog = rule.Enablesyslog ∧
  item.Enabled = rule.Enabled ∧ item.Sendeventstofmc = rule.Sendeventstofmc ∧
  item.Logfiles = rule.Logfiles ∧ item.Logbegin = rule.Logbegin ∧ item.Logend = rule.Logend

/-- A returned item is the written rule as stored: same scalars and same
reference lists. -/
def Mirrors (rule : AccessRule) (item : AccessRuleResponse) : Prop :=
  SameScalars rule item ∧ SameReferenceLists rule item

/-- A client reflects what was stored: every create succeeds, and the get by the
same policy and the returned identifier, in the state the create left, returns
the rule that was handed to create. -/
def Reflecting {σ : Type} (c : Client σ) : Prop :=
  ∀ (acp : String) (rule : AccessRule) (s : σ),
    ∃ res s1 item s2, c.CreateAccessRule acp rule s = (Except.ok res, s1) ∧
      c.GetAccessRule acp res.ID s1 = (Except.ok item, s2) ∧ Mirrors rule item

/-- A written reference read back with no descriptive name. -/
def responseObjectOf (obj : AccessRuleSubConfig) : AccessRuleResponseObject :=
  { ID := obj.ID, Name := "", Type_ := obj.Type_ }

/-- A written rule read back under the identifier `id`, field by field. -/
def responseOf (id : String) (rule : AccessRule) : AccessRuleResponse :=
  { ID := id
    Name := rule.Name
    Type_ := rule.Type_
    Action := rule.Action
    Syslogseverity := rule.Syslogseverity
    Enablesyslog := rule.Enablesyslog
    Enabled := rule.Enabled
    Sendeventstofmc := rule.Sendeventstofmc
    Logfiles := rule.Logfiles
    Logbegin := rule.Logbegin
    Logend := rule.Logend
    Sourcezones := { Objects := rule.Sourcezones.Objects.map responseObjectOf }
    Destinationzones := { Objects := rule.Destinationzones.Objects.map responseObjectOf }
    Sourcenetworks := { Objects := rule.Sourcenetworks.Objects.map responseObjectOf }
    Destinationnetworks := { Objects := rule.Destinationnetworks.Objects.map responseObjectOf }
    Sourceports := { Objects := rule.Sourceports.Objects.map responseObjectOf }
    Destinationports := { Objects := rule.Destinationports.Objects.map responseObjectOf }
    Urls := { Objects := rule.Urls.Objects.map responseObjectOf }
    Ipspolicy := responseObjectOf rule.Ipspolicy
    Filepolicy := responseObjectOf rule.Filepolicy
    Syslogconfig := responseObjectOf rule.Syslogconfig }

/-- One entry of the store of the reflecting test client. -/
structure Stored where
  acp : String
  id : String
  rule : AccessRule
deriving DecidableEq, Repr

/-- Whether a stored entry is the one addressed by a policy and an identifier. -/
def Stored.isAt (acp id : String) (e : Stored) : Bool :=
  decide (e.acp = acp ∧ e.id = id)

/-- A test client that reflects what was stored: create stores the rule under
the identifier `newID` and returns it, get returns the stored rule or a
not-found error, delete removes the stored rule or returns a not-found error. -/
def reflectingClient (newID : String) : Client (List Stored) where
  CreateAccessRule acp rule s :=
    (Except.ok (responseOf newID rule), { acp := acp, id := newID, rule := rule } :: s)
  GetAccessRule acp id s :=
    match s.find? (Stored.isAt acp id) with
    | some e => (Except.ok (responseOf e.id e.rule), s)
    | none => (Except.error { message := "access rule not found" }, s)
  DeleteAccessRule acp id s :=
    if s.any (Stored.isAt acp id) then (none, s.filter (fun e => !Stored.isAt acp id e))
    else (some { message := "access rule not found" }, s)

/-- A test client whose create succeeds under the identifier `newID` and whose
get always fails. -/
def getFailsClient (newID : String) : Client Unit where
  CreateAccessRule _ rule s := (Except.ok (responseOf newID rule), s)
  GetAccessRule _ _ s := (Except.error { message := "get failed" }, s)
  DeleteAccessRule _ _ s := (none, s)

/-- One call on the remote client. -/
inductive Call where
  | CreateAccessRule (acpID : String) (rule : AccessRule)
  | GetAccessRule (acpID ruleID : String)
  | DeleteAccessRule (acpID ruleID : String)
deriving DecidableEq, Repr

/-- A client together with a log: every call behaves as the call of `c` and is
appended to the log. -/
def Client.traced {σ : Type} (c : Client σ) : Client (σ × List Call) where
  CreateAccessRule acp rule s :=
    ((c.CreateAccessRule acp rule s.1).1,
      ((c.CreateAccessRule acp rule s.1).2, s.2 ++ [Call.CreateAccessRule acp rule]))
  GetAccessRule acp id s :=
    ((c.GetAccessRule acp id s.1).1,
      ((c.GetAccessRule acp id s.1).2, s.2 ++ [Call.GetAccessRule acp id]))
  DeleteAccessRule acp id s :=
    ((c.DeleteAccessRule acp id s.1).1,
      ((c.DeleteAccessRule acp id s.1).2, s.2 ++ [Call.DeleteAccessRule acp id]))

/-- Unicode tables that keep every rune outside ASCII as it is and print none
of them; the concrete inputs below are ASCII, where the tables are not
consulted. -/
def plainTables : UnicodeTables :=
  { toUpper := fun c => c, isPrint := fun _ => false }

/-- The record of the end-to-end scenario: policy `p1`, name `r1`, action
`block`, both required flags set, two source zones, nothing else. -/
def scenarioRecord : ResourceData :=
  { id := "", acp := "p1", name := "r1", type := "", action := "block", syslog_severity := "",
    enable_syslog := true, enabled := true, send_events_to_fmc := false, log_files := false,
    log_begin := false, log_end := false,
    source_zones := some [Elem.string "z1", Elem.string "z2"],
    destination_zones := none, source_networks := none, destination_networks := none,
    source_ports := none, destination_ports := none, urls := none, ips_policy := "",
    file_policy := "", syslog_config := "", comments := none }

/-- The record that `resourceAccessRulesRead` leaves when it has written a
fetched item into `d`, in closed form (see `readDecode_eq`): ten scalars and
seven lists of identifiers are overwritten, everything else is kept. -/
def decodedRecord (item : AccessRuleResponse) (d : ResourceData) : ResourceData :=
  { d with
    name := item.Name
    type := item.Type_
    action := item.Action
    syslog_severity := item.Syslogseverity
    enable_syslog := item.Enablesyslog
    enabled := item.Enabled
    send_events_to_fmc := item.Sendeventstofmc
    log_files := item.Logfiles
    log_begin := item.Logbegin
    log_end := item.Logend
    source_zones := some ((responseIDs item.Sourcezones.Objects).map Elem.string)
    destination_zones := some ((responseIDs item.Destinationzones.Objects).map Elem.string)
    source_networks := some ((responseIDs item.Sourcenetworks.Objects).map Elem.string)
    destination_networks := some ((responseIDs item.Destinationnetworks.Objects).map Elem.string)
    source_ports := some ((responseIDs item.Sourceports.Objects).map Elem.string)
    destination_ports := some ((responseIDs item.Destinationports.Objects).map Elem.string)
    urls := some ((responseIDs item.Urls.Objects).map Elem.string) }

/-- Two returned items agree on everything the decoder reads: the ten scalars
and, list by list, the identifiers of the seven reference lists.  They may
differ in the descriptive attributes of every reference. -/
def SameDecodedFields (a b : AccessRuleResponse) : Prop :=
  (a.Name = b.Name ∧ a.Type_ = b.Type_ ∧ a.Action = b.Action ∧
    a.Syslogseverity = b.Syslogseverity ∧ a.Enablesyslog = b.Enablesyslog ∧
    a.Enabled = b.Enabled ∧ a.Sendeventstofmc = b.Sendeventstofmc ∧
    a.Logfiles = b.Logfiles ∧ a.Logbegin = b.Logbegin ∧ a.Logend = b.Logend) ∧
  responseIDs a.Sourcezones.Objects = responseIDs b.Sourcezones.Objects ∧
  responseIDs a.Destinationzones.Objects = responseIDs b.Destinationzones.Objects ∧
  responseIDs a.Sourcenetworks.Objects = responseIDs b.Sourcenetworks.Objects ∧
  responseIDs a.Destinationnetworks.Objects = responseIDs b.Destinationnetworks.Objects ∧
  responseIDs a.Sourceports.Objects = responseIDs b.Sourceports.Objects ∧
  responseIDs a.Destinationports.Objects = responseIDs b.Destinationports.Objects ∧
  responseIDs a.Urls.Objects = responseIDs b.Urls.Objects

/-- The rule that the encoder builds from the scenario record. -/
def scenarioRule : AccessRule :=
  { Name := "r1", Type_ := "AccessRule", Action := "BLOCK", Syslogseverity := "",
    Enablesyslog := true, Enabled := true, Sendeventstofmc := false, Logfiles := false,
    Logbegin := false, Logend := false,
    Sourcezones := { Objects := [{ ID := "z1" }, { ID := "z2" }] },
    Destinationzones := { Objects := [] }, Sourcenetworks := { Objects := [] },
    Destinationnetworks := { Objects := [] }, Sourceports := { Objects := [] },
    Destinationports := { Objects := [] }, Urls := { Objects := [] },
    Ipspolicy := { ID := "" }, Filepolicy := { ID := "" }, Syslogconfig := { ID := "" },
    Newcomments := [] }

/-- The scenario rule as a remote returns it under `id-123`, with descriptive
attributes on its references. -/
def scenarioItem : AccessRuleResponse :=
  { responseOf "id-123" scenarioRule with
    Sourcezones := { Objects := [{ ID := "z1", Name := "inside", Type_ := "SecurityZone" },
      { ID := "z2", Name := "outside", Type_ := "SecurityZone" }] } }

/-- A test client whose get always returns the given item. -/
def constantClient (item : AccessRuleResponse) : Client Unit where
  CreateAccessRule _ _ s := (Except.ok item, s)
  GetAccessRule _ _ s := (Except.ok item, s)
  DeleteAccessRule _ _ s := (none, s)

/-- The scenario item with references to an intrusion policy, a file policy and
a syslog destination. -/
def policiesItem : AccessRuleResponse :=
  { scenarioItem with
    Ipspolicy := { ID := "ips-1", Name := "balanced", Type_ := "IntrusionPolicy" }
    Filepolicy := { ID := "file-1", Name := "malware", Type_ := "FilePolicy" }
    Syslogconfig := { ID := "syslog-1", Name := "collector", Type_ := "SyslogAlert" } }

/-- The scenario item as a remote that answers in lower case returns it. -/
def lowerCaseItem : AccessRuleResponse :=
  { scenarioItem with Action := "block", Syslogseverity := "info" }

/-- The scenario record once it is managed under `id-123`. -/
def managedRecord : ResourceData :=
  { scenarioRecord with id := "id-123" }

/-- The strings among the elements of a list, in order. -/
def stringsOf (l : List Elem) : List String :=
  l.filterMap Elem.assertString

/-- Every element of every list that Create reads from the record (the seven
reference lists and `comments`) is a string: none is nil. -/
def ResourceData.ListsAreStrings (d : ResourceData) : Prop :=
  ∀ l ∈ [d.source_zones, d.destination_zones, d.source_networks, d.destination_networks,
      d.source_ports, d.destination_ports, d.urls, d.comments],
    Elem.nil ∉ l.getD []

/-- The scenario record configured with `source_zones = ["", "z"]`: the SDK
hands the empty string back as nil. -/
def emptyZoneRecord : ResourceData :=
  { scenarioRecord with source_zones := some [Elem.nil, Elem.string "z"] }

/-- The scenario record configured with `urls = ["u", ""]`. -/
def emptyUrlRecord : ResourceData :=
  { scenarioRecord with urls := some [Elem.string "u", Elem.nil] }

/-- The string `sub` occurs in the string `s`. -/
def Contains (s sub : String) : Prop :=
  sub.data <:+: s.data

/-- The rule that the encoder hands to the remote client when none of its
assertions panics, in closed form (see `createRequest_eq`). -/
def encodedRule (t : UnicodeTables) (d : ResourceData) : AccessRule :=
  { Name := d.name
    Type_ := "AccessRule"
    Action := ToUpper t d.action
    Syslogseverity := ToUpper t d.syslog_severity
    Enablesyslog := d.enable_syslog
    Enabled := d.enabled
    Sendeventstofmc := d.send_events_to_fmc
    Logfiles := d.log_files
    Logbegin := d.log_begin
    Logend := d.log_end
    Sourcezones := { Objects := subConfigsOf (stringsOf (d.source_zones.getD [])) }
    Destinationzones := { Objects := subConfigsOf (stringsOf (d.destination_zones.getD [])) }
    Sourcenetworks := { Objects := subConfigsOf (stringsOf (d.source_networks.getD [])) }
    Destinationnetworks :=
      { Objects := subConfigsOf (stringsOf (d.destination_networks.getD [])) }
    Sourceports := { Objects := subConfigsOf (stringsOf (d.source_ports.getD [])) }
    Destinationports := { Objects := subConfigsOf (stringsOf (d.destination_ports.getD [])) }
    Urls := { Objects := subConfigsOf (stringsOf (d.urls.getD [])) }
    Ipspolicy := { ID := d.ips_policy }
    Filepolicy := { ID := d.file_policy }
    Syslogconfig := { ID := d.syslog_config }
    Newcomments := stringsOf (d.comments.getD []) }

/-! ## Auxiliary lemmas -/

theorem validateLoop_eq (t : UnicodeTables) (key v : String) (allowedValues rest : List String) :
    validateLoop t key v allowedValues rest =
      if v ∈ rest then ([], []) else ([], [validationErrorf t key allowedValues v]) := by
  induction rest with
  | nil => simp [validateLoop]
  | cons a rest ih =>
    by_cases h : v = a
    · simp [validateLoop, h]
    · simp [validateLoop, h, ih]

theorem stringsOf_map_string (ids : List String) : stringsOf (ids.map Elem.string) = ids := by
  induction ids with
  | nil => rfl
  | cons a l ih =>
    simp only [stringsOf, List.map_cons, List.filterMap_cons, Elem.assertString] at ih ⊢
    rw [ih]

theorem map_string_stringsOf (l : List Elem) (h : Elem.nil ∉ l) :
    (stringsOf l).map Elem.string = l := by
  induction l with
  | nil => rfl
  | cons a l ih =>
    have hl : Elem.nil ∉ l := fun hm => h (List.mem_cons_of_mem _ hm)
    cases a with
    | nil => exact absurd (List.mem_cons_self _ _) h
    | string x =>
      simp only [stringsOf, List.filterMap_cons, Elem.assertString, List.map_cons] at ih ⊢
      rw [ih hl]

theorem createEntries_eq (i : Nat) (p : VarPtr) (hp : createDynamicObjects[i]? = some p)
    (ents : List Elem) (vars : CreateVars) :
    createEntries i ents vars =
      if Elem.nil ∈ ents then none
      else some (vars.assign p (vars.deref p ++ subConfigsOf (stringsOf ents))) := by
  induction ents generalizing vars with
  | nil =>
    cases p <;>
      simp [createEntries, subConfigsOf, stringsOf, CreateVars.assign, CreateVars.deref]
  | cons ent rest ih =>
    cases ent with
    | nil => simp [createEntries, hp, Elem.assertString]
    | string x =>
      simp only [createEntries, hp, Elem.assertString, ih]
      by_cases hn : Elem.nil ∈ rest
      · simp [hn]
      · cases p <;>
          simp [hn, subConfigsOf, stringsOf, Elem.assertString, CreateVars.assign,
            CreateVars.deref]

theorem createLoop_step (d : ResourceData) (i : Nat) (objType : String) (p : VarPtr)
    (l : List Elem) (rest : List (Nat × String)) (vars : CreateVars)
    (hp : createDynamicObjects[i]? = some p) (hg : d.Get objType = some (Value.list l)) :
    createLoop d ((i, objType) :: rest) vars =
      if Elem.nil ∈ l then none
      else createLoop d rest (vars.assign p (vars.deref p ++ subConfigsOf (stringsOf l))) := by
  simp only [createLoop, ResourceData.GetOk, hg, Option.map_some', Value.isZero, Value.assertList]
  cases l with
  | nil =>
    cases p <;> simp [subConfigsOf, stringsOf, CreateVars.assign, CreateVars.deref]
  | cons a as =>
    rw [createEntries_eq i p hp]
    by_cases hn : Elem.nil ∈ a :: as
    · simp [hn]
    · simp [hn]

theorem createLoop_eq (d : ResourceData)
    (h1 : Elem.nil ∉ d.source_zones.getD []) (h2 : Elem.nil ∉ d.destination_zones.getD [])
    (h3 : Elem.nil ∉ d.source_networks.getD []) (h4 : Elem.nil ∉ d.destination_networks.getD [])
    (h5 : Elem.nil ∉ d.source_ports.getD []) (h6 : Elem.nil ∉ d.destination_ports.getD [])
    (h7 : Elem.nil ∉ d.urls.getD []) :
    createLoop d createObjTypes.enum CreateVars.nil =
      some { sourceZones := subConfigsOf (stringsOf (d.source_zones.getD []))
             destinationZones := subConfigsOf (stringsOf (d.destination_zones.getD []))
             sourceNetworks := subConfigsOf (stringsOf (d.source_networks.getD []))
             destinationNetworks := subConfigsOf (stringsOf (d.destination_networks.getD []))
             sourcePorts := subConfigsOf (stringsOf (d.source_ports.getD []))
             destinationPorts := subConfigsOf (stringsOf (d.destination_ports.getD []))
             urls := subConfigsOf (stringsOf (d.urls.getD [])) } := by
  have e : createObjTypes.enum = [(0, "source_zones"), (1, "destination_zones"),
      (2, "source_networks"), (3, "destination_networks"), (4, "source_ports"),
      (5, "destination_ports"), (6, "urls")] := rfl
  rw [e]
  rw [createLoop_step d 0 "source_zones" VarPtr.sourceZones _ _ _ rfl rfl, if_neg h1,
    createLoop_step d 1 "destination_zones" VarPtr.destinationZones _ _ _ rfl rfl, if_neg h2,
    createLoop_step d 2 "source_networks" VarPtr.sourceNetworks _ _ _ rfl rfl, if_neg h3,
    createLoop_step d 3 "destination_networks" VarPtr.destinationNetworks _ _ _ rfl rfl,
    if_neg h4,
    createLoop_step d 4 "source_ports" VarPtr.sourcePorts _ _ _ rfl rfl, if_neg h5,
    createLoop_step d 5 "destination_ports" VarPtr.destinationPorts _ _ _ rfl rfl, if_neg h6,
    createLoop_step d 6 "urls" VarPtr.urls _ _ _ rfl rfl, if_neg h7]
  simp [createLoop, CreateVars.assign, CreateVars.deref, CreateVars.nil]

/-- The create loop panics as soon as one of the seven lists holds nil. -/
theorem createLoop_none (d : ResourceData)
    (h : Elem.nil ∈ d.source_zones.getD [] ∨ Elem.nil ∈ d.destination_zones.getD [] ∨
      Elem.nil ∈ d.source_networks.getD [] ∨ Elem.nil ∈ d.destination_networks.getD [] ∨
      Elem.nil ∈ d.source_ports.getD [] ∨ Elem.nil ∈ d.destination_ports.getD [] ∨
      Elem.nil ∈ d.urls.getD []) :
    createLoop d createObjTypes.enum CreateVars.nil = none := by
  have e : createObjTypes.enum = [(0, "source_zones"), (1, "destination_zones"),
      (2, "source_networks"), (3, "destination_networks"), (4, "source_ports"),
      (5, "destination_ports"), (6, "urls")] := rfl
  rw [e]
  rw [createLoop_step d 0 "source_zones" VarPtr.sourceZones _ _ _ rfl rfl]
  by_cases h1 : Elem.nil ∈ d.source_zones.getD []
  · rw [if_pos h1]
  rw [if_neg h1, createLoop_step d 1 "destination_zones" VarPtr.destinationZones _ _ _ rfl rfl]
  by_cases h2 : Elem.nil ∈ d.destination_zones.getD []
  · rw [if_pos h2]
  rw [if_neg h2, createLoop_step d 2 "source_networks" VarPtr.sourceNetworks _ _ _ rfl rfl]
  by_cases h3 : Elem.nil ∈ d.source_networks.getD []
  · rw [if_pos h3]
  rw [if_neg h3,
    createLoop_step d 3 "destination_networks" VarPtr.destinationNetworks _ _ _ rfl rfl]
  by_cases h4 : Elem.nil ∈ d.destination_networks.getD []
  · rw [if_pos h4]
  rw [if_neg h4, createLoop_step d 4 "source_ports" VarPtr.sourcePorts _ _ _ rfl rfl]
  by_cases h5 : Elem.nil ∈ d.source_ports.getD []
  · rw [if_pos h5]
  rw [if_neg h5, createLoop_step d 5 "destination_ports" VarPtr.destinationPorts _ _ _ rfl rfl]
  by_cases h6 : Elem.nil ∈ d.destination_ports.getD []
  · rw [if_pos h6]
  rw [if_neg h6, createLoop_step d 6 "urls" VarPtr.urls _ _ _ rfl rfl]
  by_cases h7 : Elem.nil ∈ d.urls.getD []
  · rw [if_pos h7]
  · exact absurd h (by simp [h1, h2, h3, h4, h5, h6, h7])

theorem foldl_append_singleton {α : Type} (l acc : List α) :
    l.foldl (fun xs x => xs ++ [x]) acc = acc ++ l := by
  induction l generalizing acc with
  | nil => simp
  | cons a l ih => simp [ih]

theorem commentsLoop_eq (l : List Elem) (acc : List String) :
    commentsLoop l acc = if Elem.nil ∈ l then none else some (acc ++ stringsOf l) := by
  induction l generalizing acc with
  | nil => simp [commentsLoop, stringsOf]
  | cons a l ih =>
    cases a with
    | nil => simp [commentsLoop, Elem.assertString]
    | string x =>
      simp only [commentsLoop, Elem.assertString, ih]
      by_cases hn : Elem.nil ∈ l
      · simp [hn]
      · simp [hn, stringsOf, Elem.assertString]

theorem createComments_eq (d : ResourceData) :
    createComments d =
      if Elem.nil ∈ d.comments.getD [] then none else some (stringsOf (d.comments.getD [])) := by
  have h : d.GetList "comments" = some (d.comments.getD []) := rfl
  simp only [createComments, h, Option.some_bind, commentsLoop_eq, List.nil_append]

theorem listsAreStrings_iff (d : ResourceData) :
    d.ListsAreStrings ↔
      Elem.nil ∉ d.source_zones.getD [] ∧ Elem.nil ∉ d.destination_zones.getD [] ∧
      Elem.nil ∉ d.source_networks.getD [] ∧ Elem.nil ∉ d.destination_networks.getD [] ∧
      Elem.nil ∉ d.source_ports.getD [] ∧ Elem.nil ∉ d.destination_ports.getD [] ∧
      Elem.nil ∉ d.urls.getD [] ∧ Elem.nil ∉ d.comments.getD [] := by
  simp [ResourceData.ListsAreStrings]

/-- The encoder in closed form, when every list element is a string: no
assertion panics and no index is out of range. -/
theorem createRequest_eq (t : UnicodeTables) (d : ResourceData) (h : d.ListsAreStrings) :
    createRequest t d = some (d.acp, encodedRule t d) := by
  obtain ⟨h1, h2, h3, h4, h5, h6, h7, h8⟩ := (listsAreStrings_iff d).1 h
  unfold createRequest
  rw [createLoop_eq d h1 h2 h3 h4 h5 h6 h7, createComments_eq, if_neg h8]
  rfl

/-- The encoder panics when a list element is nil. -/
theorem createRequest_none (t : UnicodeTables) (d : ResourceData) (h : ¬ d.ListsAreStrings) :
    createRequest t d = none := by
  rw [listsAreStrings_iff] at h
  by_cases hl : Elem.nil ∈ d.source_zones.getD [] ∨ Elem.nil ∈ d.destination_zones.getD [] ∨
      Elem.nil ∈ d.source_networks.getD [] ∨ Elem.nil ∈ d.destination_networks.getD [] ∨
      Elem.nil ∈ d.source_ports.getD [] ∨ Elem.nil ∈ d.destination_ports.getD [] ∨
      Elem.nil ∈ d.urls.getD []
  · unfold createRequest
    rw [createLoop_none d hl]
  · have h8 : Elem.nil ∈ d.comments.getD [] := by
      by_contra h8
      exact h (by simpa [not_or, h8] using hl)
    unfold createRequest
    rw [createComments_eq, if_pos h8]
    cases createLoop d createObjTypes.enum CreateVars.nil <;> rfl

/-- Whatever the encoder returns is the closed form, and it returns exactly when
every list element is a string. -/
theorem createRequest_some (t : UnicodeTables) (d : ResourceData) (acp : String)
    (rule : AccessRule) (h : createRequest t d = some (acp, rule)) :
    d.ListsAreStrings ∧ acp = d.acp ∧ rule = encodedRule t d := by
  by_cases hl : d.ListsAreStrings
  · rw [createRequest_eq t d hl] at h
    simp only [Option.some.injEq, Prod.mk.injEq] at h
    exact ⟨hl, h.1.symm, h.2.symm⟩
  · rw [createRequest_none t d hl] at h
    exact absurd h (by simp)

theorem readResponse_eq (objs : List AccessRuleResponseObject) :
    readResponse objs = responseIDs objs := by
  have h := foldl_append_singleton (objs.map (fun obj => obj.ID)) []
  simp only [List.foldl_map, List.nil_append] at h
  exact h

theorem setAll_readScalars (item : AccessRuleResponse) (d : ResourceData) :
    setAll (readScalars item) d = (none,
      { d with
        name := item.Name
        type := item.Type_
        action := item.Action
        syslog_severity := item.Syslogseverity
        enable_syslog := item.Enablesyslog
        enabled := item.Enabled
        send_events_to_fmc := item.Sendeventstofmc
        log_files := item.Logfiles
        log_begin := item.Logbegin
        log_end := item.Logend }) := rfl

theorem readLoop_step (i : Nat) (objs : List AccessRuleResponseObject) (objName : String)
    (rest : List (Nat × List AccessRuleResponseObject)) (d d1 : ResourceData)
    (hn : dynamicObjectNames[i]? = some objName)
    (hs : d.Set objName (Value.strings (responseIDs objs)) = Except.ok d1) :
    readLoop ((i, objs) :: rest) d = readLoop rest d1 := by
  simp only [readLoop, hn, readResponse_eq, hs]

theorem readLoop_eq (item : AccessRuleResponse) (d : ResourceData) :
    readLoop (readDynamicObjects item).enum d = some (none,
      { d with
        source_zones := some ((responseIDs item.Sourcezones.Objects).map Elem.string)
        destination_zones := some ((responseIDs item.Destinationzones.Objects).map Elem.string)
        source_networks := some ((responseIDs item.Sourcenetworks.Objects).map Elem.string)
        destination_networks := some ((responseIDs item.Destinationnetworks.Objects).map Elem.string)
        source_ports := some ((responseIDs item.Sourceports.Objects).map Elem.string)
        destination_ports := some ((responseIDs item.Destinationports.Objects).map Elem.string)
        urls := some ((responseIDs item.Urls.Objects).map Elem.string) }) := by
  have e : (readDynamicObjects item).enum = [(0, item.Sourcezones.Objects),
      (1, item.Destinationzones.Objects), (2, item.Sourcenetworks.Objects),
      (3, item.Destinationnetworks.Objects), (4, item.Sourceports.Objects),
      (5, item.Destinationports.Objects), (6, item.Urls.Objects)] := rfl
  rw [e]
  rw [readLoop_step 0 _ "source_zones" _ _ _ rfl rfl,
    readLoop_step 1 _ "destination_zones" _ _ _ rfl rfl,
    readLoop_step 2 _ "source_networks" _ _ _ rfl rfl,
    readLoop_step 3 _ "destination_networks" _ _ _ rfl rfl,
    readLoop_step 4 _ "source_ports" _ _ _ rfl rfl,
    readLoop_step 5 _ "destination_ports" _ _ _ rfl rfl,
    readLoop_step 6 _ "urls" _ _ _ rfl rfl]
  rfl

/-- The decoder in closed form: no `d.Set` fails and no index is out of range. -/
theorem readDecode_eq (item : AccessRuleResponse) (d : ResourceData) :
    readDecode item d = some ([], decodedRecord item d) := by
  unfold readDecode
  rw [setAll_readScalars]
  simp only [readLoop_eq]
  rfl

theorem subConfigIDs_subConfigsOf (ids : List String) :
    subConfigIDs (subConfigsOf ids) = ids := by
  induction ids with
  | nil => rfl
  | cons a l ih =>
    simp only [subConfigIDs, subConfigsOf, List.map_cons, List.cons.injEq, true_and] at ih ⊢
    exact ih

theorem responseIDs_map_responseObjectOf (objs : List AccessRuleSubConfig) :
    responseIDs (objs.map responseObjectOf) = subConfigIDs objs := by
  simp [responseIDs, subConfigIDs, responseObjectOf]

theorem mirrors_responseOf (id : String) (rule : AccessRule) : Mirrors rule (responseOf id rule) := by
  simp [Mirrors, SameScalars, SameReferenceLists, responseOf, responseIDs_map_responseObjectOf]

theorem read_of_error {σ : Type} (c : Client σ) (d : ResourceData) (s s1 : σ) (err : GoError)
    (h : c.GetAccessRule d.acp d.Id s = (Except.error err, s1)) :
    resourceAccessRulesRead c d s = some (returnWithDiag [] err, d, s1) := by
  have ha : d.GetString "acp" = some d.acp := rfl
  simp only [resourceAccessRulesRead, ha, h]

theorem read_of_ok {σ : Type} (c : Client σ) (d : ResourceData) (s s1 : σ)
    (item : AccessRuleResponse) (h : c.GetAccessRule d.acp d.Id s = (Except.ok item, s1)) :
    resourceAccessRulesRead c d s = some ([], decodedRecord item d, s1) := by
  have ha : d.GetString "acp" = some d.acp := rfl
  simp only [resourceAccessRulesRead, ha, h, readDecode_eq]

/-- Read returns in every case, keeps the identifier, and ends in the remote
state that the get call left. -/
theorem read_returns {σ : Type} (c : Client σ) (d : ResourceData) (s : σ) :
    ∃ ds d1, resourceAccessRulesRead c d s = some (ds, d1, (c.GetAccessRule d.acp d.Id s).2) ∧
      d1.Id = d.Id := by
  cases hg : c.GetAccessRule d.acp d.Id s with
  | mk g s1 =>
    cases g with
    | error err => exact ⟨_, _, read_of_error c d s s1 err hg, rfl⟩
    | ok item => exact ⟨_, _, read_of_ok c d s s1 item hg, rfl⟩

theorem create_of_error {σ : Type} (t : UnicodeTables) (c : Client σ) (d : ResourceData)
    (s s1 : σ) (acp : String) (rule : AccessRule) (err : GoError)
    (hr : createRequest t d = some (acp, rule))
    (h : c.CreateAccessRule acp rule s = (Except.error err, s1)) :
    resourceAccessRulesCreate t c d s = some (returnWithDiag [] err, d, s1) := by
  simp only [resourceAccessRulesCreate, hr, h]

theorem create_of_ok {σ : Type} (t : UnicodeTables) (c : Client σ) (d : ResourceData)
    (s s1 : σ) (acp : String) (rule : AccessRule) (res : AccessRuleResponse)
    (hr : createRequest t d = some (acp, rule))
    (h : c.CreateAccessRule acp rule s = (Except.ok res, s1)) :
    resourceAccessRulesCreate t c d s = resourceAccessRulesRead c (d.SetId res.ID) s1 := by
  simp only [resourceAccessRulesCreate, hr, h]

/-- Under a logging client, the log that Create leaves starts with the create
call it made. -/
theorem create_traced_log {σ : Type} (t : UnicodeTables) (c : Client σ) (d : ResourceData)
    (s : σ) (rule : AccessRule) (hr : createRequest t d = some (d.acp, rule)) :
    ∃ ds d1 s1 log, resourceAccessRulesCreate t c.traced d (s, []) =
      some (ds, d1, (s1, Call.CreateAccessRule d.acp rule :: log)) := by
  cases hc : c.CreateAccessRule d.acp rule s with
  | mk r s1 =>
    have hs : (c.traced.CreateAccessRule d.acp rule (s, [])).2 =
        (s1, [Call.CreateAccessRule d.acp rule]) := by
      simp only [Client.traced, hc, List.nil_append]
    cases r with
    | error err =>
      have ht : c.traced.CreateAccessRule d.acp rule (s, []) =
          (Except.error err, (s1, [Call.CreateAccessRule d.acp rule])) := by
        simp only [Client.traced, hc, List.nil_append]
      exact ⟨_, _, _, [], create_of_error t c.traced d _ _ _ _ err hr ht⟩
    | ok res =>
      have ht : c.traced.CreateAccessRule d.acp rule (s, []) =
          (Except.ok res, (s1, [Call.CreateAccessRule d.acp rule])) := by
        simp only [Client.traced, hc, List.nil_append]
      obtain ⟨ds, d1, h, _⟩ := read_returns c.traced (d.SetId res.ID)
        (s1, [Call.CreateAccessRule d.acp rule])
      refine ⟨ds, d1, (c.GetAccessRule d.acp res.ID s1).2, [Call.GetAccessRule d.acp res.ID], ?_⟩
      rw [create_of_ok t c.traced d _ _ _ _ res hr ht, h]
      rfl

theorem delete_of_error {σ : Type} (c : Client σ) (d : ResourceData) (s s1 : σ) (err : GoError)
    (h : c.DeleteAccessRule d.acp d.Id s = (some err, s1)) :
    resourceAccessRulesDelete c d s = some (returnWithDiag [] err, d, s1) := by
  have ha : d.GetString "acp" = some d.acp := rfl
  simp only [resourceAccessRulesDelete, ha, h]

theorem delete_of_ok {σ : Type} (c : Client σ) (d : ResourceData) (s s1 : σ)
    (h : c.DeleteAccessRule d.acp d.Id s = (none, s1)) :
    resourceAccessRulesDelete c d s = some ([], d.SetId "", s1) := by
  have ha : d.GetString "acp" = some d.acp := rfl
  simp only [resourceAccessRulesDelete, ha, h]


theorem create_of_panic {σ : Type} (t : UnicodeTables) (c : Client σ) (d : ResourceData) (s : σ)
    (h : createRequest t d = none) : resourceAccessRulesCreate t c d s = none := by
  simp only [resourceAccessRulesCreate, h]

theorem scenarioRecord_listsAreStrings : scenarioRecord.ListsAreStrings := by
  rw [listsAreStrings_iff]
  simp [scenarioRecord]

theorem createEntries_none_iff (i : Nat) (p : VarPtr) (hp : createDynamicObjects[i]? = some p)
    (ents : List Elem) (vars : CreateVars) :
    createEntries i ents vars = none ↔ Elem.nil ∈ ents := by
  rw [createEntries_eq i p hp]
  by_cases hn : Elem.nil ∈ ents
  · simp [hn]
  · simp [hn]

/-! ## Encode/decode round trip -/

/-- C1, at the failing input.  The scenario record configured with
`source_zones = ["", "z"]` holds, as `d.Get` returns it, a nil first element; the
assertion `ent.(string)` of the encoder panics on it, so no rule is built and
Create panics before any remote call: nothing is left to decode, and the list is
not reproduced. -/
theorem reference_list_round_trip_panics_on_empty_string :
    emptyZoneRecord.GetList "source_zones" = some [Elem.nil, Elem.string "z"] ∧
    createRequest plainTables emptyZoneRecord = none ∧
    resourceAccessRulesCreate plainTables (reflectingClient "id-123") emptyZoneRecord [] = none :=
  ⟨rfl, rfl, rfl⟩

/-- Reference-list round trip for a record whose list elements are all strings:
the encoder returns a rule, and decoding, into any record `d0`, any returned item
that carries the rule's reference lists (in particular the rule itself read back
field by field) succeeds without diagnostics and leaves, under each of the seven
attribute names, exactly the list that `d` holds under that name; an empty list
(also an absent one) yields a present empty list. -/
theorem reference_list_round_trip (t : UnicodeTables) (d d0 : ResourceData)
    (hd : d.ListsAreStrings) :
    ∃ rule, createRequest t d = some (d.acp, rule) ∧
      (∀ id, SameReferenceLists rule (responseOf id rule)) ∧
      ∀ item, SameReferenceLists rule item →
        ∃ d1, readDecode item d0 = some ([], d1) ∧
          (∀ key ∈ createObjTypes, d1.GetList key = d.GetList key) ∧
          d1.source_zones = some (d.source_zones.getD []) ∧
          d1.destination_zones = some (d.destination_zones.getD []) ∧
          d1.source_networks = some (d.source_networks.getD []) ∧
          d1.destination_networks = some (d.destination_networks.getD []) ∧
          d1.source_ports = some (d.source_ports.getD []) ∧
          d1.destination_ports = some (d.destination_ports.getD []) ∧
          d1.urls = some (d.urls.getD []) := by
  obtain ⟨n1, n2, n3, n4, n5, n6, n7, _⟩ := (listsAreStrings_iff d).1 hd
  refine ⟨_, createRequest_eq t d hd, fun id => (mirrors_responseOf id _).2, ?_⟩
  intro item h
  obtain ⟨h1, h2, h3, h4, h5, h6, h7⟩ := h
  simp only [encodedRule, subConfigIDs_subConfigsOf] at h1 h2 h3 h4 h5 h6 h7
  have e1 := congrArg some ((congrArg (List.map Elem.string) h1).trans (map_string_stringsOf _ n1))
  have e2 := congrArg some ((congrArg (List.map Elem.string) h2).trans (map_string_stringsOf _ n2))
  have e3 := congrArg some ((congrArg (List.map Elem.string) h3).trans (map_string_stringsOf _ n3))
  have e4 := congrArg some ((congrArg (List.map Elem.string) h4).trans (map_string_stringsOf _ n4))
  have e5 := congrArg some ((congrArg (List.map Elem.string) h5).trans (map_string_stringsOf _ n5))
  have e6 := congrArg some ((congrArg (List.map Elem.string) h6).trans (map_string_stringsOf _ n6))
  have e7 := congrArg some ((congrArg (List.map Elem.string) h7).trans (map_string_stringsOf _ n7))
  refine ⟨_, readDecode_eq item d0, ?_, e1, e2, e3, e4, e5, e6, e7⟩
  intro key hkey
  simp only [createObjTypes, List.mem_cons, List.mem_singleton, List.not_mem_nil, or_false] at hkey
  rcases hkey with rfl | rfl | rfl | rfl | rfl | rfl | rfl
  · exact e1
  · exact e2
  · exact e3
  · exact e4
  · exact e5
  · exact e6
  · exact e7

/-! ## Validators and normalization -/

/-- C2. The `action` validator returns no warnings and no errors exactly when
the upper-cased value is one of the seven allowed actions; otherwise it returns
no warnings and exactly one error.  The inputs allow, Allow and ALLOW are
accepted and PERMIT is rejected. -/
theorem action_validator_accepts_iff (t : UnicodeTables) (val key : String) :
    (actionValidateFunc t val key = ([], []) ↔
      ToUpper t val ∈ ["ALLOW", "TRUST", "BLOCK", "MONITOR", "BLOCK_RESET",
        "BLOCK_INTERACTIVE", "BLOCK_RESET_INTERACTIVE"]) ∧
    (ToUpper t val ∉ ["ALLOW", "TRUST", "BLOCK", "MONITOR", "BLOCK_RESET",
        "BLOCK_INTERACTIVE", "BLOCK_RESET_INTERACTIVE"] →
      (actionValidateFunc t val key).1 = [] ∧ (actionValidateFunc t val key).2.length = 1) ∧
    actionValidateFunc t "allow" key = ([], []) ∧
    actionValidateFunc t "Allow" key = ([], []) ∧
    actionValidateFunc t "ALLOW" key = ([], []) ∧
    (actionValidateFunc t "PERMIT" key).1 = [] ∧
    (actionValidateFunc t "PERMIT" key).2.length = 1 := by
  have h : ∀ v, actionValidateFunc t v key =
      if ToUpper t v ∈ actionAllowedValues then ([], [])
      else ([], [validationErrorf t key actionAllowedValues (ToUpper t v)]) :=
    fun v => validateLoop_eq t key (ToUpper t v) actionAllowedValues actionAllowedValues
  refine ⟨?_, ?_, rfl, rfl, rfl, rfl, rfl⟩
  · rw [h val]
    show (_ ↔ ToUpper t val ∈ actionAllowedValues)
    by_cases hm : ToUpper t val ∈ actionAllowedValues
    · rw [if_pos hm]
      exact ⟨fun _ => hm, fun _ => rfl⟩
    · rw [if_neg hm]
      exact ⟨fun hc => absurd hc (by simp), fun hc => absurd hc hm⟩
  · intro hm
    have hm1 : ToUpper t val ∉ actionAllowedValues := hm
    rw [h val]
    simp [hm1]

/-- C3. The `syslog_severity` validator returns no warnings and no errors
exactly when the upper-cased value is one of the eight allowed severities;
otherwise it returns no warnings and exactly one error. -/
theorem syslog_severity_validator_accepts_iff (t : UnicodeTables) (val key : String) :
    (syslogSeverityValidateFunc t val key = ([], []) ↔
      ToUpper t val ∈ ["ALERT", "CRIT", "DEBUG", "EMERG", "ERR", "INFO", "NOTICE", "WARNING"]) ∧
    (ToUpper t val ∉ ["ALERT", "CRIT", "DEBUG", "EMERG", "ERR", "INFO", "NOTICE", "WARNING"] →
      (syslogSeverityValidateFunc t val key).1 = [] ∧
      (syslogSeverityValidateFunc t val key).2.length = 1) := by
  have h : syslogSeverityValidateFunc t val key =
      if ToUpper t val ∈ syslogSeverityAllowedValues then ([], [])
      else ([], [validationErrorf t key syslogSeverityAllowedValues (ToUpper t val)]) :=
    validateLoop_eq t key (ToUpper t val) syslogSeverityAllowedValues syslogSeverityAllowedValues
  refine ⟨?_, ?_⟩
  · rw [h]
    show (_ ↔ ToUpper t val ∈ syslogSeverityAllowedValues)
    by_cases hm : ToUpper t val ∈ syslogSeverityAllowedValues
    · rw [if_pos hm]
      exact ⟨fun _ => hm, fun _ => rfl⟩
    · rw [if_neg hm]
      exact ⟨fun hc => absurd hc (by simp), fun hc => absurd hc hm⟩
  · intro hm
    have hm1 : ToUpper t val ∉ syslogSeverityAllowedValues := hm
    rw [h]
    simp [hm1]

/-- C4. Enum normalization on the write path: whenever the encoder of Create
hands a rule to the remote client (it does for every record whose list elements
are all strings; otherwise it panics before any call), the first call that
Create makes is the create call with the record's policy and that rule, and the
rule's `Action` and `Syslogseverity` are the upper-cased `action` and
`syslog_severity` of the record; each `StateFunc` produces the same upper-cased
value; hence for a value that its validator accepts, the value transmitted and
the value stored are members of the enumerated set.  The inputs allow, Allow and
ALLOW are all upper-cased to ALLOW. -/
theorem enum_normalization_on_write {σ : Type} (t : UnicodeTables) (c : Client σ)
    (d : ResourceData) (s : σ) :
    (d.ListsAreStrings → ∃ rule, createRequest t d = some (d.acp, rule)) ∧
    (∀ acp rule, createRequest t d = some (acp, rule) →
      acp = d.acp ∧
      (∃ ds d1 s1 log, resourceAccessRulesCreate t c.traced d (s, []) =
        some (ds, d1, (s1, Call.CreateAccessRule d.acp rule :: log))) ∧
      rule.Action = ToUpper t d.action ∧
      rule.Syslogseverity = ToUpper t d.syslog_severity ∧
      (∀ key, actionValidateFunc t d.action key = ([], []) →
        rule.Action ∈ ["ALLOW", "TRUST", "BLOCK", "MONITOR", "BLOCK_RESET",
          "BLOCK_INTERACTIVE", "BLOCK_RESET_INTERACTIVE"]) ∧
      (∀ key, syslogSeverityValidateFunc t d.syslog_severity key = ([], []) →
        rule.Syslogseverity ∈
          ["ALERT", "CRIT", "DEBUG", "EMERG", "ERR", "INFO", "NOTICE", "WARNING"])) ∧
    (createRequest t d = none → resourceAccessRulesCreate t c d s = none) ∧
    actionStateFunc t d.action = ToUpper t d.action ∧
    syslogSeverityStateFunc t d.syslog_severity = ToUpper t d.syslog_severity ∧
    (∀ key, actionValidateFunc t d.action key = ([], []) →
      actionStateFunc t d.action ∈ ["ALLOW", "TRUST", "BLOCK", "MONITOR", "BLOCK_RESET",
        "BLOCK_INTERACTIVE", "BLOCK_RESET_INTERACTIVE"]) ∧
    (∀ key, syslogSeverityValidateFunc t d.syslog_severity key = ([], []) →
      syslogSeverityStateFunc t d.syslog_severity ∈
        ["ALERT", "CRIT", "DEBUG", "EMERG", "ERR", "INFO", "NOTICE", "WARNING"]) ∧
    ToUpper t "allow" = "ALLOW" ∧ ToUpper t "Allow" = "ALLOW" ∧ ToUpper t "ALLOW" = "ALLOW" := by
  have hact : ∀ key, actionValidateFunc t d.action key = ([], []) →
      ToUpper t d.action ∈ actionAllowedValues := by
    intro key h
    have h1 := (validateLoop_eq t key (ToUpper t d.action) actionAllowedValues
      actionAllowedValues).symm.trans h
    by_cases hm : ToUpper t d.action ∈ actionAllowedValues
    · exact hm
    · rw [if_neg hm] at h1
      exact absurd h1 (by simp)
  have hsev : ∀ key, syslogSeverityValidateFunc t d.syslog_severity key = ([], []) →
      ToUpper t d.syslog_severity ∈ syslogSeverityAllowedValues := by
    intro key h
    have h1 := (validateLoop_eq t key (ToUpper t d.syslog_severity) syslogSeverityAllowedValues
      syslogSeverityAllowedValues).symm.trans h
    by_cases hm : ToUpper t d.syslog_severity ∈ syslogSeverityAllowedValues
    · exact hm
    · rw [if_neg hm] at h1
      exact absurd h1 (by simp)
  refine ⟨fun hd => ⟨_, createRequest_eq t d hd⟩, ?_, create_of_panic t c d s, rfl, rfl, hact,
    hsev, rfl, rfl, rfl⟩
  intro acp rule hr
  obtain ⟨_, hacp, hrule⟩ := createRequest_some t d acp rule hr
  subst hacp
  refine ⟨rfl, create_traced_log t c d s rule hr, ?_, ?_, ?_, ?_⟩
  · rw [hrule]
    rfl
  · rw [hrule]
    rfl
  · intro key h
    rw [hrule]
    exact hact key h
  · intro key h
    rw [hrule]
    exact hsev key h

/-- C4, at a concrete input: the encoder returns for the scenario record, whose
action is `block`, and the rule it hands over carries `BLOCK`. -/
theorem enum_normalization_on_write_scenario :
    ∃ rule, createRequest plainTables scenarioRecord = some ("p1", rule) ∧
      rule.Action = "BLOCK" := by
  obtain ⟨hret, hall, _⟩ :=
    enum_normalization_on_write plainTables (reflectingClient "id-123") scenarioRecord []
  obtain ⟨rule, hr⟩ := hret scenarioRecord_listsAreStrings
  exact ⟨rule, hr, (hall _ rule hr).2.2.1⟩

/-! ## Lifecycle -/

/-- C5. Update always fails: for every client, record and remote state, Update
returns exactly one diagnostic, of severity Error and with detail
`update not implemented`, leaves the record unchanged and leaves the remote
state unchanged; under a client that logs its calls the log is unchanged, so no
call is made. -/
theorem update_always_fails {σ : Type} (c : Client σ) (d : ResourceData) (s : σ)
    (log : List Call) :
    resourceAccessRulesUpdate c d s =
      ([{ Severity := Severity.Error, Summary := "Error in access rule",
          Detail := "update not implemented" }], d, s) ∧
    resourceAccessRulesUpdate c.traced d (s, log) =
      ([{ Severity := Severity.Error, Summary := "Error in access rule",
          Detail := "update not implemented" }], d, (s, log)) ∧
    (resourceAccessRulesUpdate c d s).1.length = 1 :=
  ⟨rfl, rfl, rfl⟩

/-- C6, as stated, fails: with a client whose create succeeds under the
identifier `id-123` and whose get fails, Create on the scenario record (whose
identifier is empty) returns an error diagnostic and the record's identifier is
`id-123`, not the identifier it had before the call. -/
theorem create_failing_read_keeps_new_identifier :
    resourceAccessRulesCreate plainTables (getFailsClient "id-123") scenarioRecord () =
      some ([{ Severity := Severity.Error, Summary := "Error in access rule",
               Detail := "get failed" }],
        { scenarioRecord with id := "id-123" }, ()) ∧
    ResourceData.Id { scenarioRecord with id := "id-123" } ≠ scenarioRecord.Id :=
  ⟨rfl, by decide⟩

/-- C6, amended. Whenever the encoder of Create hands a rule to the remote
client (it does for every record whose list elements are all strings): if the
remote create call fails, Create returns exactly the one error diagnostic of that
failure and the record, identifier included, is unchanged; if the remote create
call succeeds, Create returns, and the record's identifier is the identifier
returned by the remote create, also when the read that follows fails, in which
case Create returns the one error diagnostic of the read and the record is
otherwise unchanged. -/
theorem create_assigns_identifier_iff_remote_create_succeeds {σ : Type} (t : UnicodeTables)
    (c : Client σ) (d : ResourceData) (s : σ) :
    (d.ListsAreStrings → ∃ rule, createRequest t d = some (d.acp, rule)) ∧
    ∀ acp rule, createRequest t d = some (acp, rule) →
      acp = d.acp ∧
      (∀ err s1, c.CreateAccessRule d.acp rule s = (Except.error err, s1) →
        resourceAccessRulesCreate t c d s =
          some ([{ Severity := Severity.Error, Summary := "Error in access rule",
                   Detail := err.message }], d, s1)) ∧
      (∀ res s1, c.CreateAccessRule d.acp rule s = (Except.ok res, s1) →
        (∃ ds d1 s2, resourceAccessRulesCreate t c d s = some (ds, d1, s2) ∧ d1.Id = res.ID) ∧
        (∀ err s2, c.GetAccessRule d.acp res.ID s1 = (Except.error err, s2) →
          resourceAccessRulesCreate t c d s =
            some ([{ Severity := Severity.Error, Summary := "Error in access rule",
                     Detail := err.message }], d.SetId res.ID, s2))) := by
  refine ⟨fun hd => ⟨_, createRequest_eq t d hd⟩, ?_⟩
  intro acp rule hr
  obtain ⟨_, hacp, _⟩ := createRequest_some t d acp rule hr
  subst hacp
  refine ⟨rfl, ?_, ?_⟩
  · intro err s1 h
    exact create_of_error t c d s s1 _ _ err hr h
  · intro res s1 h
    have hc := create_of_ok t c d s s1 _ _ res hr h
    refine ⟨?_, ?_⟩
    · rw [hc]
      obtain ⟨ds, d1, hrd, hid⟩ := read_returns c (d.SetId res.ID) s1
      exact ⟨ds, d1, _, hrd, hid⟩
    · intro err s2 hg
      rw [hc]
      exact read_of_error c (d.SetId res.ID) s1 s2 err hg

/-- C6, amended, at a concrete input: against the reflecting test client the
encoder returns for the scenario record, the remote create succeeds, and Create
leaves the identifier `id-123` that the remote returned. -/
theorem create_assigns_identifier_scenario :
    ∃ ds d1 s2, resourceAccessRulesCreate plainTables (reflectingClient "id-123")
        scenarioRecord [] = some (ds, d1, s2) ∧ d1.Id = "id-123" := by
  obtain ⟨hret, hall⟩ := create_assigns_identifier_iff_remote_create_succeeds plainTables
    (reflectingClient "id-123") scenarioRecord []
  obtain ⟨rule, hr⟩ := hret scenarioRecord_listsAreStrings
  exact ((hall _ rule hr).2.2 (responseOf "id-123" rule) _ rfl).1

/-- C7. Delete: if the remote delete by the record's policy and identifier
succeeds, Delete returns no diagnostics and the record's identifier is the empty
string (the rest of the record is unchanged); if the remote delete fails, Delete
returns the one error diagnostic of that failure and the record, identifier
included, is exactly what it was.  This holds in every remote state, so a Delete
against a rule that the remote no longer holds returns the remote error. -/
theorem delete_clears_identifier_or_reports {σ : Type} (c : Client σ) (d : ResourceData)
    (s : σ) :
    (∀ s1, c.DeleteAccessRule d.acp d.Id s = (none, s1) →
      ∃ d1, resourceAccessRulesDelete c d s = some ([], d1, s1) ∧ d1.Id = "" ∧
        d1 = { d with id := "" }) ∧
    (∀ err s1, c.DeleteAccessRule d.acp d.Id s = (some err, s1) →
      ∃ d1, resourceAccessRulesDelete c d s =
          some ([{ Severity := Severity.Error, Summary := "Error in access rule",
                   Detail := err.message }], d1, s1) ∧
        d1.Id = d.Id ∧ d1 = d) := by
  refine ⟨?_, ?_⟩
  · intro s1 h
    exact ⟨_, delete_of_ok c d s s1 h, rfl, rfl⟩
  · intro err s1 h
    exact ⟨_, delete_of_error c d s s1 err h, rfl, rfl⟩

/-- C7, scenario. Against the reflecting test client holding the scenario rule
under `id-123`, a first Delete succeeds and clears the identifier; a second
Delete of the same rule, by the record as it was before the first one, returns
the not-found error of the remote and keeps the identifier. -/
theorem delete_twice_reports_remote_error :
    (∃ d1, resourceAccessRulesDelete (reflectingClient "id-123")
        { scenarioRecord with id := "id-123" }
        [{ acp := "p1", id := "id-123", rule := scenarioRule }] = some ([], d1, []) ∧
      d1.Id = "") ∧
    (∃ d1, resourceAccessRulesDelete (reflectingClient "id-123")
        { scenarioRecord with id := "id-123" } [] =
          some ([{ Severity := Severity.Error, Summary := "Error in access rule",
                   Detail := "access rule not found" }], d1, []) ∧
      d1.Id = "id-123") := by
  constructor
  · obtain ⟨d1, h, hid, _⟩ := (delete_clears_identifier_or_reports (reflectingClient "id-123")
      { scenarioRecord with id := "id-123" }
      [{ acp := "p1", id := "id-123", rule := scenarioRule }]).1 [] rfl
    exact ⟨d1, h, hid⟩
  · obtain ⟨d1, h, hid, _⟩ := (delete_clears_identifier_or_reports (reflectingClient "id-123")
      { scenarioRecord with id := "id-123" } []).2 { message := "access rule not found" } [] rfl
    exact ⟨d1, h, hid⟩

theorem reflectingClient_reflecting (newID : String) : Reflecting (reflectingClient newID) := by
  intro acp rule s
  refine ⟨responseOf newID rule, { acp := acp, id := newID, rule := rule } :: s,
    responseOf newID rule, { acp := acp, id := newID, rule := rule } :: s, rfl, ?_,
    mirrors_responseOf newID rule⟩
  simp [reflectingClient, responseOf, Stored.isAt]

/-! ## Encoder and decoder, field by field -/

/-- C8, at the failing input.  For the scenario record configured with
`source_zones = ["", "z"]` the inner loop of the encoder, at index 0, panics on
the nil first entry, and with it the outer loop and the encoder: no `Objects`
list is built, where the claim asks for two references with the identifiers of
the configured list. -/
theorem encoder_panics_on_empty_string_entry :
    emptyZoneRecord.GetOk "source_zones" =
      some (Value.list [Elem.nil, Elem.string "z"], true) ∧
    createEntries 0 [Elem.nil, Elem.string "z"] CreateVars.nil = none ∧
    createLoop emptyZoneRecord createObjTypes.enum CreateVars.nil = none ∧
    createRequest plainTables emptyZoneRecord = none :=
  ⟨rfl, rfl, rfl, rfl⟩

/-- Encoder reference lists for a record whose list elements are all strings:
the encoder returns a rule in which, for each of the seven attribute names paired
with the rule field of the same meaning, the `Objects` list is the list of
identifiers held under that name mapped, element by element, to a reference with
that `ID` and an empty `Type_`: same length, the i-th reference built from the
i-th identifier, nothing dropped, reordered or deduplicated, and each rule field
built from its own attribute alone. -/
theorem encoder_reference_lists (t : UnicodeTables) (d : ResourceData)
    (hd : d.ListsAreStrings) :
    ∃ rule, createRequest t d = some (d.acp, rule) ∧
      ∀ p ∈ [("source_zones", rule.Sourcezones.Objects),
             ("destination_zones", rule.Destinationzones.Objects),
             ("source_networks", rule.Sourcenetworks.Objects),
             ("destination_networks", rule.Destinationnetworks.Objects),
             ("source_ports", rule.Sourceports.Objects),
             ("destination_ports", rule.Destinationports.Objects),
             ("urls", rule.Urls.Objects)],
        ∃ ids : List String, d.GetList p.1 = some (ids.map Elem.string) ∧
          p.2 = ids.map (fun ent => ({ ID := ent, Type_ := "" } : AccessRuleSubConfig)) ∧
          p.2.length = ids.length ∧
          ∀ (i : Nat) (ent : String), ids[i]? = some ent →
            p.2[i]? = some ({ ID := ent, Type_ := "" } : AccessRuleSubConfig) := by
  obtain ⟨n1, n2, n3, n4, n5, n6, n7, _⟩ := (listsAreStrings_iff d).1 hd
  refine ⟨_, createRequest_eq t d hd, ?_⟩
  have key : ∀ ids : List String,
      subConfigsOf ids = ids.map (fun ent => ({ ID := ent, Type_ := "" } : AccessRuleSubConfig)) ∧
      (subConfigsOf ids).length = ids.length ∧
      ∀ (i : Nat) (ent : String), ids[i]? = some ent →
        (subConfigsOf ids)[i]? = some ({ ID := ent, Type_ := "" } : AccessRuleSubConfig) := by
    intro ids
    refine ⟨rfl, by simp [subConfigsOf], ?_⟩
    intro i ent h
    simp [subConfigsOf, List.getElem?_map, h]
  intro p hp
  simp only [List.mem_cons, List.mem_singleton, List.not_mem_nil, or_false] at hp
  rcases hp with rfl | rfl | rfl | rfl | rfl | rfl | rfl
  · exact ⟨_, congrArg some (map_string_stringsOf _ n1).symm, key _⟩
  · exact ⟨_, congrArg some (map_string_stringsOf _ n2).symm, key _⟩
  · exact ⟨_, congrArg some (map_string_stringsOf _ n3).symm, key _⟩
  · exact ⟨_, congrArg some (map_string_stringsOf _ n4).symm, key _⟩
  · exact ⟨_, congrArg some (map_string_stringsOf _ n5).symm, key _⟩
  · exact ⟨_, congrArg some (map_string_stringsOf _ n6).symm, key _⟩
  · exact ⟨_, congrArg some (map_string_stringsOf _ n7).symm, key _⟩

/-- C9. Decoder reference lists: when the get by the record's policy and
identifier returns an item, Read returns without diagnostics and, for each of
the seven attribute names paired with the item field of the same meaning, the
attribute is present and holds exactly the `ID`s of that field's `Objects`, each
as a string element, in order and with the same length; an `Objects` list with
no entries gives a present empty list; and decoding any item that agrees on the
scalars and on the `ID`s (whatever the other attributes of its references) gives
the same record. -/
theorem decoder_reference_lists {σ : Type} (c : Client σ) (d : ResourceData) (s s1 : σ)
    (item : AccessRuleResponse) (h : c.GetAccessRule d.acp d.Id s = (Except.ok item, s1)) :
    ∃ d1, resourceAccessRulesRead c d s = some ([], d1, s1) ∧
      (∀ p ∈ [("source_zones", d1.source_zones, item.Sourcezones.Objects),
              ("destination_zones", d1.destination_zones, item.Destinationzones.Objects),
              ("source_networks", d1.source_networks, item.Sourcenetworks.Objects),
              ("destination_networks", d1.destination_networks, item.Destinationnetworks.Objects),
              ("source_ports", d1.source_ports, item.Sourceports.Objects),
              ("destination_ports", d1.destination_ports, item.Destinationports.Objects),
              ("urls", d1.urls, item.Urls.Objects)],
        p.2.1 = some ((p.2.2.map (fun obj => obj.ID)).map Elem.string) ∧
        d1.GetList p.1 = some ((p.2.2.map (fun obj => obj.ID)).map Elem.string) ∧
        p.2.1.map List.length = some p.2.2.length ∧
        (p.2.2 = [] → p.2.1 = some [])) ∧
      (∀ item2, SameDecodedFields item item2 → readDecode item2 d = some ([], d1)) := by
  refine ⟨_, read_of_ok c d s s1 item h, ?_, ?_⟩
  · have key : ∀ objs : List AccessRuleResponseObject,
        some ((responseIDs objs).map Elem.string) =
          some ((objs.map (fun obj => obj.ID)).map Elem.string) ∧
        (some ((responseIDs objs).map Elem.string)).map List.length = some objs.length ∧
        (objs = [] → some ((responseIDs objs).map Elem.string) = some []) := by
      intro objs
      refine ⟨rfl, by simp [responseIDs], ?_⟩
      intro ho
      rw [ho]
      rfl
    intro p hp
    simp only [List.mem_cons, List.mem_singleton, List.not_mem_nil, or_false] at hp
    rcases hp with rfl | rfl | rfl | rfl | rfl | rfl | rfl
    · exact ⟨(key _).1, rfl, (key _).2⟩
    · exact ⟨(key _).1, rfl, (key _).2⟩
    · exact ⟨(key _).1, rfl, (key _).2⟩
    · exact ⟨(key _).1, rfl, (key _).2⟩
    · exact ⟨(key _).1, rfl, (key _).2⟩
    · exact ⟨(key _).1, rfl, (key _).2⟩
    · exact ⟨(key _).1, rfl, (key _).2⟩
  · intro item2 h2
    obtain ⟨⟨a1, a2, a3, a4, a5, a6, a7, a8, a9, a10⟩, b1, b2, b3, b4, b5, b6, b7⟩ := h2
    rw [readDecode_eq]
    simp only [decodedRecord, a1, a2, a3, a4, a5, a6, a7, a8, a9, a10, b1, b2, b3, b4, b5, b6, b7]

/-- C9, at a concrete input: Read of the scenario record under `id-123` against
a client that returns the scenario item, whose source zones carry names and
types, stores the two identifiers alone and present empty lists elsewhere. -/
theorem decoder_reference_lists_scenario :
    (constantClient scenarioItem).GetAccessRule
        (ResourceData.acp { scenarioRecord with id := "id-123" })
        (ResourceData.Id { scenarioRecord with id := "id-123" }) () =
      (Except.ok scenarioItem, ()) ∧
    ∃ d1, resourceAccessRulesRead (constantClient scenarioItem)
        { scenarioRecord with id := "id-123" } () = some ([], d1, ()) ∧
      d1.source_zones = some [Elem.string "z1", Elem.string "z2"] ∧ d1.urls = some [] := by
  refine ⟨rfl, ?_⟩
  obtain ⟨d1, h, hl, _⟩ := decoder_reference_lists (constantClient scenarioItem)
    { scenarioRecord with id := "id-123" } () () scenarioItem rfl
  refine ⟨d1, h, ?_, ?_⟩
  · exact (hl ("source_zones", d1.source_zones, scenarioItem.Sourcezones.Objects)
      (by simp)).1
  · exact (hl ("urls", d1.urls, scenarioItem.Urls.Objects) (by simp)).1

/-! ## Create followed by its read -/

/-- C10, at the failing input.  Against the reflecting test client, Create of
the scenario record configured with `urls = ["u", ""]` panics in the encoder, on
the nil second entry, before the remote create is called: it returns neither
diagnostics nor a record, where the claim asks for success with the input lists
decoded. -/
theorem create_panics_on_empty_string_url :
    Reflecting (reflectingClient "id-123") ∧
    emptyUrlRecord.GetList "urls" = some [Elem.string "u", Elem.nil] ∧
    resourceAccessRulesCreate plainTables (reflectingClient "id-123") emptyUrlRecord [] = none ∧
    resourceAccessRulesCreate plainTables (reflectingClient "id-123").traced emptyUrlRecord
      ([], []) = none :=
  ⟨reflectingClient_reflecting "id-123", rfl, rfl, rfl⟩

/-- Create-then-Read against a reflecting client, for a record whose list
elements are all strings: the remote create succeeds, Create returns no
diagnostics, the record's identifier is the identifier the remote create
returned, and the decoded fields equal the encoded input: name, the six boolean flags and the seven reference lists are
those of the input, type is `AccessRule`, and action and syslog_severity are the
upper-cased inputs. -/
theorem create_then_read_reflecting {σ : Type} (t : UnicodeTables) (c : Client σ)
    (d : ResourceData) (s : σ) (hc : Reflecting c) (hd : d.ListsAreStrings) :
    ∃ rule res s1, createRequest t d = some (d.acp, rule) ∧
      c.CreateAccessRule d.acp rule s = (Except.ok res, s1) ∧
      ∃ d1 s2, resourceAccessRulesCreate t c d s = some ([], d1, s2) ∧
        d1.Id = res.ID ∧
        d1.name = d.name ∧
        d1.type = "AccessRule" ∧
        d1.action = ToUpper t d.action ∧
        d1.syslog_severity = ToUpper t d.syslog_severity ∧
        d1.enable_syslog = d.enable_syslog ∧
        d1.enabled = d.enabled ∧
        d1.send_events_to_fmc = d.send_events_to_fmc ∧
        d1.log_files = d.log_files ∧
        d1.log_begin = d.log_begin ∧
        d1.log_end = d.log_end ∧
        (∀ key ∈ createObjTypes, d1.GetList key = d.GetList key) ∧
        d1.source_zones = some (d.source_zones.getD []) ∧
        d1.destination_zones = some (d.destination_zones.getD []) ∧
        d1.source_networks = some (d.source_networks.getD []) ∧
        d1.destination_networks = some (d.destination_networks.getD []) ∧
        d1.source_ports = some (d.source_ports.getD []) ∧
        d1.destination_ports = some (d.destination_ports.getD []) ∧
        d1.urls = some (d.urls.getD []) := by
  obtain ⟨n1, n2, n3, n4, n5, n6, n7, _⟩ := (listsAreStrings_iff d).1 hd
  obtain ⟨res, s1, item, s2, h1, h2, hm⟩ := hc d.acp (encodedRule t d) s
  refine ⟨_, res, s1, createRequest_eq t d hd, h1, decodedRecord item (d.SetId res.ID), s2, ?_,
    rfl, ?_⟩
  · rw [create_of_ok t c d s s1 _ _ res (createRequest_eq t d hd) h1]
    exact read_of_ok c (d.SetId res.ID) s1 s2 item h2
  · obtain ⟨⟨a1, a2, a3, a4, a5, a6, a7, a8, a9, a10⟩, b1, b2, b3, b4, b5, b6, b7⟩ := hm
    simp only [encodedRule, subConfigIDs_subConfigsOf] at b1 b2 b3 b4 b5 b6 b7
    have e1 := congrArg some ((congrArg (List.map Elem.string) b1).trans (map_string_stringsOf _ n1))
    have e2 := congrArg some ((congrArg (List.map Elem.string) b2).trans (map_string_stringsOf _ n2))
    have e3 := congrArg some ((congrArg (List.map Elem.string) b3).trans (map_string_stringsOf _ n3))
    have e4 := congrArg some ((congrArg (List.map Elem.string) b4).trans (map_string_stringsOf _ n4))
    have e5 := congrArg some ((congrArg (List.map Elem.string) b5).trans (map_string_stringsOf _ n5))
    have e6 := congrArg some ((congrArg (List.map Elem.string) b6).trans (map_string_stringsOf _ n6))
    have e7 := congrArg some ((congrArg (List.map Elem.string) b7).trans (map_string_stringsOf _ n7))
    refine ⟨a1, a2, a3, a4, a5, a6, a7, a8, a9, a10, ?_, e1, e2, e3, e4, e5, e6, e7⟩
    intro key hkey
    simp only [createObjTypes, List.mem_cons, List.mem_singleton, List.not_mem_nil,
      or_false] at hkey
    rcases hkey with rfl | rfl | rfl | rfl | rfl | rfl | rfl
    · exact e1
    · exact e2
    · exact e3
    · exact e4
    · exact e5
    · exact e6
    · exact e7

/-- End-to-end scenario: the test client that stores rules under `id-123`
is reflecting, and Create of the scenario record against it returns no
diagnostics and leaves identifier `id-123`, source zones `z1`, `z2` and action
`BLOCK`. -/
theorem create_then_read_scenario :
    Reflecting (reflectingClient "id-123") ∧
    ∃ d1 s2, resourceAccessRulesCreate plainTables (reflectingClient "id-123")
        scenarioRecord [] = some ([], d1, s2) ∧
      d1.Id = "id-123" ∧ d1.source_zones = some [Elem.string "z1", Elem.string "z2"] ∧
      d1.action = "BLOCK" := by
  refine ⟨reflectingClient_reflecting "id-123", ?_⟩
  obtain ⟨rule, res, s1, _, hcr, d1, s2, h, hid, _, _, hact, _, _, _, _, _, _, _, _, hsz, _⟩ :=
    create_then_read_reflecting plainTables (reflectingClient "id-123") scenarioRecord []
      (reflectingClient_reflecting "id-123") scenarioRecord_listsAreStrings
  refine ⟨d1, s2, h, ?_, hsz, hact⟩
  have hres : res = responseOf "id-123" rule := by
    have h0 : (reflectingClient "id-123").CreateAccessRule scenarioRecord.acp rule [] =
        (Except.ok (responseOf "id-123" rule),
          [{ acp := scenarioRecord.acp, id := "id-123", rule := rule }]) := rfl
    rw [h0] at hcr
    simp only [Prod.mk.injEq, Except.ok.injEq] at hcr
    exact hcr.1.symm
  rw [hid, hres]
  rfl

theorem contains_append_left (a b sub : String) (h : Contains a sub) : Contains (a ++ b) sub := by
  unfold Contains at h ⊢
  rw [String.data_append]
  exact h.trans (List.infix_append' [] a.data b.data |>.trans (by simp))

theorem contains_append_right (a b sub : String) (h : Contains b sub) : Contains (a ++ b) sub := by
  unfold Contains at h ⊢
  rw [String.data_append]
  exact h.trans (List.suffix_append a.data b.data).isInfix

theorem contains_self (a : String) : Contains a a :=
  List.infix_refl a.data

/-! ## What Read decodes and what it leaves -/

/-- C11, as stated, fails: the remote returns the scenario rule with the
intrusion policy `ips-1`, the file policy `file-1` and the syslog destination
`syslog-1`; Read succeeds, and the record's three singular references are still
the empty strings it held before, not the identifiers of the remote rule. -/
theorem read_leaves_singular_references_unset :
    ∃ d1, resourceAccessRulesRead (constantClient policiesItem) managedRecord () =
        some ([], d1, ()) ∧
      d1.ips_policy = "" ∧ policiesItem.Ipspolicy.ID = "ips-1" ∧
      d1.file_policy = "" ∧ policiesItem.Filepolicy.ID = "file-1" ∧
      d1.syslog_config = "" ∧ policiesItem.Syslogconfig.ID = "syslog-1" ∧
      d1.ips_policy ≠ policiesItem.Ipspolicy.ID :=
  ⟨decodedRecord policiesItem managedRecord, rfl, rfl, rfl, rfl, rfl, rfl, rfl, by decide⟩

/-- C11, amended. When the get by the record's policy and identifier returns an
item, Read returns without diagnostics and sets name, type, action,
syslog_severity, the six flags and the seven reference lists from the item; the
three singular references `ips_policy`, `file_policy` and `syslog_config`, like
`comments`, are not decoded: they are exactly what the record held before,
whatever the item's `Ipspolicy`, `Filepolicy` and `Syslogconfig` are. -/
theorem read_decodes_all_but_singular_references {σ : Type} (c : Client σ) (d : ResourceData)
    (s s1 : σ) (item : AccessRuleResponse)
    (h : c.GetAccessRule d.acp d.Id s = (Except.ok item, s1)) :
    ∃ d1, resourceAccessRulesRead c d s = some ([], d1, s1) ∧
      d1.name = item.Name ∧ d1.type = item.Type_ ∧ d1.action = item.Action ∧
      d1.syslog_severity = item.Syslogseverity ∧ d1.enable_syslog = item.Enablesyslog ∧
      d1.enabled = item.Enabled ∧ d1.send_events_to_fmc = item.Sendeventstofmc ∧
      d1.log_files = item.Logfiles ∧ d1.log_begin = item.Logbegin ∧ d1.log_end = item.Logend ∧
      d1.source_zones = some ((item.Sourcezones.Objects.map (fun obj => obj.ID)).map Elem.string) ∧
      d1.destination_zones = some ((item.Destinationzones.Objects.map (fun obj => obj.ID)).map Elem.string) ∧
      d1.source_networks = some ((item.Sourcenetworks.Objects.map (fun obj => obj.ID)).map Elem.string) ∧
      d1.destination_networks =
        some ((item.Destinationnetworks.Objects.map (fun obj => obj.ID)).map Elem.string) ∧
      d1.source_ports = some ((item.Sourceports.Objects.map (fun obj => obj.ID)).map Elem.string) ∧
      d1.destination_ports = some ((item.Destinationports.Objects.map (fun obj => obj.ID)).map Elem.string) ∧
      d1.urls = some ((item.Urls.Objects.map (fun obj => obj.ID)).map Elem.string) ∧
      d1.ips_policy = d.ips_policy ∧ d1.file_policy = d.file_policy ∧
      d1.syslog_config = d.syslog_config ∧ d1.comments = d.comments :=
  ⟨decodedRecord item d, read_of_ok c d s s1 item h, rfl, rfl, rfl, rfl, rfl, rfl, rfl, rfl,
    rfl, rfl, rfl, rfl, rfl, rfl, rfl, rfl, rfl, rfl, rfl, rfl, rfl⟩

/-- C11, amended, at a concrete input: Read of the managed scenario record,
given a non-empty `ips_policy`, against the remote that returns `ips-1` keeps
the record's own value. -/
theorem read_decodes_all_but_singular_references_scenario :
    (constantClient policiesItem).GetAccessRule
        (ResourceData.acp { managedRecord with ips_policy := "ips-local" })
        (ResourceData.Id { managedRecord with ips_policy := "ips-local" }) () =
      (Except.ok policiesItem, ()) ∧
    ∃ d1, resourceAccessRulesRead (constantClient policiesItem)
        { managedRecord with ips_policy := "ips-local" } () = some ([], d1, ()) ∧
      d1.ips_policy = "ips-local" ∧
      d1.source_zones = some [Elem.string "z1", Elem.string "z2"] := by
  refine ⟨rfl, ?_⟩
  obtain ⟨d1, h, _, _, _, _, _, _, _, _, _, _, hsz, _, _, _, _, _, _, hips, _⟩ :=
    read_decodes_all_but_singular_references (constantClient policiesItem)
      { managedRecord with ips_policy := "ips-local" } () () policiesItem rfl
  exact ⟨d1, h, hips, hsz⟩

/-- C12, as stated, fails: the remote returns the scenario rule with action
`block` and severity `info` in lower case; Read succeeds and the record stores
both exactly so, which is not their upper-cased form. -/
theorem read_stores_lower_case_enums :
    ∃ d1, resourceAccessRulesRead (constantClient lowerCaseItem) managedRecord () =
        some ([], d1, ()) ∧
      d1.action = "block" ∧ d1.syslog_severity = "info" ∧
      ToUpper plainTables d1.action = "BLOCK" ∧
      ToUpper plainTables d1.action ≠ d1.action ∧
      ToUpper plainTables d1.syslog_severity ≠ d1.syslog_severity :=
  ⟨decodedRecord lowerCaseItem managedRecord, rfl, rfl, rfl, rfl, by decide, by decide⟩

/-- C12, amended. When the get by the record's policy and identifier returns an
item, Read returns without diagnostics and the stored `action` and
`syslog_severity` are the item's `Action` and `Syslogseverity` as the remote
wrote them, with no change of case; so a stored value equals its own upper-cased
form exactly when the remote value does. -/
theorem read_stores_remote_enums_verbatim {σ : Type} (t : UnicodeTables) (c : Client σ)
    (d : ResourceData) (s s1 : σ) (item : AccessRuleResponse)
    (h : c.GetAccessRule d.acp d.Id s = (Except.ok item, s1)) :
    ∃ d1, resourceAccessRulesRead c d s = some ([], d1, s1) ∧
      d1.action = item.Action ∧ d1.syslog_severity = item.Syslogseverity ∧
      (ToUpper t d1.action = d1.action ↔ ToUpper t item.Action = item.Action) ∧
      (ToUpper t d1.syslog_severity = d1.syslog_severity ↔
        ToUpper t item.Syslogseverity = item.Syslogseverity) :=
  ⟨decodedRecord item d, read_of_ok c d s s1 item h, rfl, rfl, Iff.rfl, Iff.rfl⟩

/-- C12, amended, at a concrete input: when the remote returns the scenario rule
in upper case, the stored action is the upper-case `BLOCK`. -/
theorem read_stores_remote_enums_verbatim_scenario :
    (constantClient scenarioItem).GetAccessRule managedRecord.acp managedRecord.Id () =
      (Except.ok scenarioItem, ()) ∧
    ∃ d1, resourceAccessRulesRead (constantClient scenarioItem) managedRecord () =
        some ([], d1, ()) ∧
      d1.action = "BLOCK" ∧ ToUpper plainTables d1.action = d1.action := by
  refine ⟨rfl, ?_⟩
  obtain ⟨d1, h, hact, _, hiff, _⟩ :=
    read_stores_remote_enums_verbatim plainTables (constantClient scenarioItem) managedRecord
      () () scenarioItem rfl
  exact ⟨d1, h, hact, hiff.2 rfl⟩

/-! ## Diagnostics and validation errors -/

/-- C13, as stated, fails: for the input `permit` under the key `action` the
validator returns one error whose message shows the value in upper case,
`PERMIT`; the value as the caller supplied it, `permit`, does not occur in the
message. -/
theorem validation_error_shows_upper_cased_value :
    actionValidateFunc plainTables "permit" "action" =
      ([], [{ message := "\"action\" must be in [ALLOW TRUST BLOCK MONITOR BLOCK_RESET BLOCK_INTERACTIVE BLOCK_RESET_INTERACTIVE], got: \"PERMIT\"" }]) ∧
    ¬ Contains "\"action\" must be in [ALLOW TRUST BLOCK MONITOR BLOCK_RESET BLOCK_INTERACTIVE BLOCK_RESET_INTERACTIVE], got: \"PERMIT\"" "permit" := by
  refine ⟨rfl, ?_⟩
  intro h
  have hp : 'p' ∈ "\"action\" must be in [ALLOW TRUST BLOCK MONITOR BLOCK_RESET BLOCK_INTERACTIVE BLOCK_RESET_INTERACTIVE], got: \"PERMIT\"".data :=
    List.IsInfix.subset h (List.mem_cons_self _ _)
  simp at hp

/-- C13, amended. For every string that the `action` validator rejects (and
likewise the `syslog_severity` validator), the single error's message is the
quoted field key, the words `must be in`, the full allowed set in square
brackets, the words `got:` and the quoted offending value in its upper-cased
form (not as the caller supplied it); the message therefore contains the quoted
key, the allowed set and the quoted upper-cased value.  A plain key such as
`action` and a plain value such as `PERMIT` are quoted by putting them between
double quotes. -/
theorem validation_error_content (t : UnicodeTables) (val key : String) :
    (ToUpper t val ∉ ["ALLOW", "TRUST", "BLOCK", "MONITOR", "BLOCK_RESET",
        "BLOCK_INTERACTIVE", "BLOCK_RESET_INTERACTIVE"] →
      ∃ e, actionValidateFunc t val key = ([], [e]) ∧
        e.message = Quote t key ++ " must be in " ++
          "[ALLOW TRUST BLOCK MONITOR BLOCK_RESET BLOCK_INTERACTIVE BLOCK_RESET_INTERACTIVE]" ++
          ", got: " ++ Quote t (ToUpper t val) ∧
        Contains e.message (Quote t key) ∧
        Contains e.message
          "[ALLOW TRUST BLOCK MONITOR BLOCK_RESET BLOCK_INTERACTIVE BLOCK_RESET_INTERACTIVE]" ∧
        Contains e.message (Quote t (ToUpper t val))) ∧
    (ToUpper t val ∉ ["ALERT", "CRIT", "DEBUG", "EMERG", "ERR", "INFO", "NOTICE", "WARNING"] →
      ∃ e, syslogSeverityValidateFunc t val key = ([], [e]) ∧
        e.message = Quote t key ++ " must be in " ++
          "[ALERT CRIT DEBUG EMERG ERR INFO NOTICE WARNING]" ++
          ", got: " ++ Quote t (ToUpper t val) ∧
        Contains e.message (Quote t key) ∧
        Contains e.message "[ALERT CRIT DEBUG EMERG ERR INFO NOTICE WARNING]" ∧
        Contains e.message (Quote t (ToUpper t val))) ∧
    Quote t "action" = "\"action\"" ∧ Quote t "syslog_severity" = "\"syslog_severity\"" ∧
    Quote t "PERMIT" = "\"PERMIT\"" := by
  have shape : ∀ allowed : String,
      Contains (Quote t key ++ " must be in " ++ allowed ++ ", got: " ++ Quote t (ToUpper t val))
        (Quote t key) ∧
      Contains (Quote t key ++ " must be in " ++ allowed ++ ", got: " ++ Quote t (ToUpper t val))
        allowed ∧
      Contains (Quote t key ++ " must be in " ++ allowed ++ ", got: " ++ Quote t (ToUpper t val))
        (Quote t (ToUpper t val)) := by
    intro allowed
    refine ⟨?_, ?_, ?_⟩
    · exact contains_append_left _ _ _ (contains_append_left _ _ _ (contains_append_left _ _ _
        (contains_append_left _ _ _ (contains_self _))))
    · exact contains_append_left _ _ _ (contains_append_left _ _ _
        (contains_append_right _ _ _ (contains_self _)))
    · exact contains_append_right _ _ _ (contains_self _)
  refine ⟨?_, ?_, rfl, rfl, rfl⟩
  · intro hm
    have hm1 : ToUpper t val ∉ actionAllowedValues := hm
    refine ⟨validationErrorf t key actionAllowedValues (ToUpper t val), ?_, rfl, shape _⟩
    have h := validateLoop_eq t key (ToUpper t val) actionAllowedValues actionAllowedValues
    rw [if_neg hm1] at h
    exact h
  · intro hm
    have hm1 : ToUpper t val ∉ syslogSeverityAllowedValues := hm
    refine ⟨validationErrorf t key syslogSeverityAllowedValues (ToUpper t val), ?_, rfl, shape _⟩
    have h := validateLoop_eq t key (ToUpper t val) syslogSeverityAllowedValues
      syslogSeverityAllowedValues
    rw [if_neg hm1] at h
    exact h

/-- C14. The kind discriminator is constant: whenever the encoder of Create
hands a rule to the remote client (it does for every record whose list elements
are all strings), the first call Create makes is the create call with that rule,
and the rule's `Type_` is `AccessRule`, the value of the package variable; what
the encoder returns does not depend on the `type` that the record holds. -/
theorem create_type_is_access_rule {σ : Type} (t : UnicodeTables) (c : Client σ)
    (d : ResourceData) (s : σ) :
    (d.ListsAreStrings → ∃ rule, createRequest t d = some (d.acp, rule)) ∧
    (∀ acp rule, createRequest t d = some (acp, rule) →
      acp = d.acp ∧
      (∃ ds d1 s1 log, resourceAccessRulesCreate t c.traced d (s, []) =
        some (ds, d1, (s1, Call.CreateAccessRule d.acp rule :: log))) ∧
      rule.Type_ = "AccessRule") ∧
    access_policies_type = "AccessRule" ∧
    ∀ ty, createRequest t { d with type := ty } = createRequest t d := by
  refine ⟨fun hd => ⟨_, createRequest_eq t d hd⟩, ?_, rfl, ?_⟩
  · intro acp rule hr
    obtain ⟨_, hacp, hrule⟩ := createRequest_some t d acp rule hr
    subst hacp
    refine ⟨rfl, create_traced_log t c d s rule hr, ?_⟩
    rw [hrule]
    rfl
  · intro ty
    by_cases hd : d.ListsAreStrings
    · have hd2 : ResourceData.ListsAreStrings { d with type := ty } := hd
      rw [createRequest_eq t d hd, createRequest_eq t _ hd2]
      rfl
    · have hd2 : ¬ ResourceData.ListsAreStrings { d with type := ty } := hd
      rw [createRequest_none t d hd, createRequest_none t _ hd2]

/-- C14, at a concrete input: the scenario record, given the `type` value
`Other`, is encoded with `Type_` equal to `AccessRule`. -/
theorem create_type_is_access_rule_scenario :
    ∃ rule, createRequest plainTables { scenarioRecord with type := "Other" } =
        some ("p1", rule) ∧ rule.Type_ = "AccessRule" := by
  obtain ⟨hret, hall, _, hty⟩ :=
    create_type_is_access_rule plainTables (reflectingClient "id-123") scenarioRecord []
  obtain ⟨rule, hr⟩ := hret scenarioRecord_listsAreStrings
  exact ⟨rule, (hty "Other").trans hr, (hall _ rule hr).2.2⟩

/-- C15. Uniform diagnostic: `returnWithDiag` returns its input list followed by
exactly one diagnostic with severity Error, summary `Error in access rule` and
the error's message as detail; and when the remote call of Create (the create
call, or the get call of the read that follows), of Read or of Delete fails with
an error, the operation returns exactly that one diagnostic. -/
theorem return_with_diag_uniform {σ : Type} (t : UnicodeTables) (c : Client σ)
    (d : ResourceData) (s : σ) (diags : Diagnostics) (err : GoError) :
    returnWithDiag diags err =
      diags ++ [{ Severity := Severity.Error, Summary := "Error in access rule",
                  Detail := err.message }] ∧
    (returnWithDiag diags err).length = diags.length + 1 ∧
    (∀ acp rule, createRequest t d = some (acp, rule) →
      (∀ e s1, c.CreateAccessRule acp rule s = (Except.error e, s1) →
        ∃ d1, resourceAccessRulesCreate t c d s =
          some ([{ Severity := Severity.Error, Summary := "Error in access rule",
                   Detail := e.message }], d1, s1)) ∧
      (∀ res e s1 s2, c.CreateAccessRule acp rule s = (Except.ok res, s1) →
        c.GetAccessRule d.acp res.ID s1 = (Except.error e, s2) →
        ∃ d1, resourceAccessRulesCreate t c d s =
          some ([{ Severity := Severity.Error, Summary := "Error in access rule",
                   Detail := e.message }], d1, s2))) ∧
    (∀ e s1, c.GetAccessRule d.acp d.Id s = (Except.error e, s1) →
      ∃ d1, resourceAccessRulesRead c d s =
        some ([{ Severity := Severity.Error, Summary := "Error in access rule",
                 Detail := e.message }], d1, s1)) ∧
    (∀ e s1, c.DeleteAccessRule d.acp d.Id s = (some e, s1) →
      ∃ d1, resourceAccessRulesDelete c d s =
        some ([{ Severity := Severity.Error, Summary := "Error in access rule",
                 Detail := e.message }], d1, s1)) := by
  refine ⟨rfl, by simp [returnWithDiag], ?_, ?_, ?_⟩
  · intro acp rule hr
    refine ⟨?_, ?_⟩
    · intro e s1 h
      exact ⟨d, create_of_error t c d s s1 _ _ e hr h⟩
    · intro res e s1 s2 h hg
      refine ⟨d.SetId res.ID, ?_⟩
      rw [create_of_ok t c d s s1 _ _ res hr h]
      exact read_of_error c (d.SetId res.ID) s1 s2 e hg
  · intro e s1 h
    exact ⟨d, read_of_error c d s s1 e h⟩
  · intro e s1 h
    exact ⟨d, delete_of_error c d s s1 e h⟩

/-- C15, at a concrete input: Create of the scenario record against the client
whose get fails returns the one diagnostic with the fixed summary and the
message of the get error. -/
theorem return_with_diag_uniform_scenario :
    ∃ d1, resourceAccessRulesCreate plainTables (getFailsClient "id-123") scenarioRecord () =
      some ([{ Severity := Severity.Error, Summary := "Error in access rule",
               Detail := "get failed" }], d1, ()) := by
  obtain ⟨_, _, hcreate, _, _⟩ := return_with_diag_uniform plainTables
    (getFailsClient "id-123") scenarioRecord () [] { message := "get failed" }
  exact (hcreate _ _ (createRequest_eq plainTables scenarioRecord
    scenarioRecord_listsAreStrings)).2 (responseOf "id-123" _) { message := "get failed" }
    () () rfl rfl

/-! ## Read: idempotence, frame and failure -/

/-- C16. Read is idempotent: when the remote returns the same item to the fetch
by the record's policy and identifier before and after a Read, the first Read
returns no diagnostics and leaves a record `d1`, and a second Read, on `d1`,
fetches by the same pair, returns no diagnostics and leaves `d1` again. -/
theorem read_idempotent {σ : Type} (c : Client σ) (d : ResourceData) (s s1 s2 : σ)
    (item : AccessRuleResponse)
    (h1 : c.GetAccessRule d.acp d.Id s = (Except.ok item, s1))
    (h2 : c.GetAccessRule d.acp d.Id s1 = (Except.ok item, s2)) :
    ∃ d1, resourceAccessRulesRead c d s = some ([], d1, s1) ∧
      d1.acp = d.acp ∧ d1.Id = d.Id ∧
      resourceAccessRulesRead c d1 s1 = some ([], d1, s2) := by
  refine ⟨decodedRecord item d, read_of_ok c d s s1 item h1, rfl, rfl, ?_⟩
  exact read_of_ok c (decodedRecord item d) s1 s2 item h2

/-- C16, at a concrete input: two Reads of the managed scenario record against
the client that always returns the scenario item leave the same record, with no
diagnostics. -/
theorem read_idempotent_scenario :
    (constantClient scenarioItem).GetAccessRule managedRecord.acp managedRecord.Id () =
      (Except.ok scenarioItem, ()) ∧
    ∃ d1, resourceAccessRulesRead (constantClient scenarioItem) managedRecord () =
        some ([], d1, ()) ∧
      resourceAccessRulesRead (constantClient scenarioItem) d1 () = some ([], d1, ()) := by
  refine ⟨rfl, ?_⟩
  obtain ⟨d1, h, _, _, hh⟩ := read_idempotent (constantClient scenarioItem) managedRecord
    () () () scenarioItem rfl rfl
  exact ⟨d1, h, hh⟩

/-- C17. Identity is immutable under Read: for every client, record and remote
state, Read returns, and whether it succeeded or failed the record's identifier,
its `acp` and its `comments` are what they were; under a client that logs its
calls, Read adds exactly one call to the log, the get by the pair of the
record's `acp` and the record's identifier. -/
theorem read_preserves_identity {σ : Type} (c : Client σ) (d : ResourceData) (s : σ)
    (log : List Call) :
    ∃ ds d1 s1, resourceAccessRulesRead c d s = some (ds, d1, s1) ∧
      d1.Id = d.Id ∧ d1.acp = d.acp ∧ d1.comments = d.comments ∧
      resourceAccessRulesRead c.traced d (s, log) =
        some (ds, d1, (s1, log ++ [Call.GetAccessRule d.acp d.Id])) := by
  cases hg : c.GetAccessRule d.acp d.Id s with
  | mk g s1 =>
    cases g with
    | error err =>
      have ht : c.traced.GetAccessRule d.acp d.Id (s, log) =
          (Except.error err, (s1, log ++ [Call.GetAccessRule d.acp d.Id])) := by
        simp only [Client.traced, hg]
      exact ⟨_, d, s1, read_of_error c d s s1 err hg, rfl, rfl, rfl,
        read_of_error c.traced d (s, log) _ err ht⟩
    | ok item =>
      have ht : c.traced.GetAccessRule d.acp d.Id (s, log) =
          (Except.ok item, (s1, log ++ [Call.GetAccessRule d.acp d.Id])) := by
        simp only [Client.traced, hg]
      exact ⟨_, decodedRecord item d, s1, read_of_ok c d s s1 item hg, rfl, rfl, rfl,
        read_of_ok c.traced d (s, log) _ item ht⟩

/-- C18. A failing Read makes no partial transition: when the get by the
record's policy and identifier returns an error, Read returns exactly one error
diagnostic, carrying the error's message, and the record it leaves is the record
it was given, identifier included. -/
theorem failing_read_leaves_record {σ : Type} (c : Client σ) (d : ResourceData) (s s1 : σ)
    (err : GoError) (h : c.GetAccessRule d.acp d.Id s = (Except.error err, s1)) :
    ∃ d1, resourceAccessRulesRead c d s =
        some ([{ Severity := Severity.Error, Summary := "Error in access rule",
                 Detail := err.message }], d1, s1) ∧
      d1 = d ∧ d1.Id = d.Id :=
  ⟨d, read_of_error c d s s1 err h, rfl, rfl⟩

/-- C18, at a concrete input: Read of the managed scenario record against the
client whose get fails returns the get error and the record unchanged. -/
theorem failing_read_leaves_record_scenario :
    (getFailsClient "id-123").GetAccessRule managedRecord.acp managedRecord.Id () =
      (Except.error { message := "get failed" }, ()) ∧
    resourceAccessRulesRead (getFailsClient "id-123") managedRecord () =
      some ([{ Severity := Severity.Error, Summary := "Error in access rule",
               Detail := "get failed" }], managedRecord, ()) := by
  refine ⟨rfl, ?_⟩
  obtain ⟨d1, h, hd, _⟩ := failing_read_leaves_record (getFailsClient "id-123") managedRecord
    () () { message := "get failed" } rfl
  rw [hd] at h
  exact h

/-! ## The parallel slices of the two loops -/

/-- C19. Positional coupling: in the Create loop the slice of names and the
slice of pointers both have length 7, in the Read loop the slice of `Objects`
lists and the slice of names both have length 7, so every index that a loop
uses is in range, for every record and every item: the Read loop always
returns, and the Create loop fails only on a nil entry (its type assertion),
never on an index.  The names that Create ranges over are the names that Read
indexes, in the same order; and position by position each name is paired with
the variable, and through it the rule field, of the same meaning on the way out,
and with the item field of the same meaning on the way back. -/
theorem parallel_slices_aligned (t : UnicodeTables) (d d0 : ResourceData)
    (item : AccessRuleResponse) :
    createObjTypes.length = 7 ∧ createDynamicObjects.length = 7 ∧
    (readDynamicObjects item).length = 7 ∧ dynamicObjectNames.length = 7 ∧
    (∀ p ∈ createObjTypes.enum, ∃ ptr, createDynamicObjects[p.1]? = some ptr ∧
      ∀ ents vars, createEntries p.1 ents vars = none ↔ Elem.nil ∈ ents) ∧
    (∀ p ∈ (readDynamicObjects item).enum, ∃ objName, dynamicObjectNames[p.1]? = some objName) ∧
    (d.ListsAreStrings → ∃ vars, createLoop d createObjTypes.enum CreateVars.nil = some vars) ∧
    (∃ d1, readLoop (readDynamicObjects item).enum d0 = some (none, d1)) ∧
    createObjTypes = dynamicObjectNames ∧
    createObjTypes.zip createDynamicObjects =
      [("source_zones", VarPtr.sourceZones), ("destination_zones", VarPtr.destinationZones),
       ("source_networks", VarPtr.sourceNetworks),
       ("destination_networks", VarPtr.destinationNetworks),
       ("source_ports", VarPtr.sourcePorts), ("destination_ports", VarPtr.destinationPorts),
       ("urls", VarPtr.urls)] ∧
    dynamicObjectNames.zip (readDynamicObjects item) =
      [("source_zones", item.Sourcezones.Objects),
       ("destination_zones", item.Destinationzones.Objects),
       ("source_networks", item.Sourcenetworks.Objects),
       ("destination_networks", item.Destinationnetworks.Objects),
       ("source_ports", item.Sourceports.Objects),
       ("destination_ports", item.Destinationports.Objects),
       ("urls", item.Urls.Objects)] ∧
    ∀ acp rule vars d1, createRequest t d = some (acp, rule) →
      createLoop d createObjTypes.enum CreateVars.nil = some vars →
      readLoop (readDynamicObjects item).enum d0 = some (none, d1) →
      ∀ p ∈ [("source_zones", vars.sourceZones, rule.Sourcezones.Objects,
                item.Sourcezones.Objects),
             ("destination_zones", vars.destinationZones, rule.Destinationzones.Objects,
                item.Destinationzones.Objects),
             ("source_networks", vars.sourceNetworks, rule.Sourcenetworks.Objects,
                item.Sourcenetworks.Objects),
             ("destination_networks", vars.destinationNetworks,
                rule.Destinationnetworks.Objects, item.Destinationnetworks.Objects),
             ("source_ports", vars.sourcePorts, rule.Sourceports.Objects,
                item.Sourceports.Objects),
             ("destination_ports", vars.destinationPorts, rule.Destinationports.Objects,
                item.Destinationports.Objects),
             ("urls", vars.urls, rule.Urls.Objects, item.Urls.Objects)],
        p.2.2.1 = p.2.1 ∧
        d.GetList p.1 = some ((p.2.2.1.map (fun obj => obj.ID)).map Elem.string) ∧
        d1.GetList p.1 = some ((p.2.2.2.map (fun obj => obj.ID)).map Elem.string) := by
  refine ⟨rfl, rfl, rfl, rfl, ?_, ?_, ?_, ⟨_, readLoop_eq item d0⟩, rfl, rfl, rfl, ?_⟩
  · intro p hp
    have e : createObjTypes.enum = [(0, "source_zones"), (1, "destination_zones"),
        (2, "source_networks"), (3, "destination_networks"), (4, "source_ports"),
        (5, "destination_ports"), (6, "urls")] := rfl
    rw [e] at hp
    simp only [List.mem_cons, List.mem_singleton, List.not_mem_nil, or_false] at hp
    rcases hp with rfl | rfl | rfl | rfl | rfl | rfl | rfl <;>
      exact ⟨_, rfl, fun ents vars => createEntries_none_iff _ _ rfl ents vars⟩
  · intro p hp
    have e : (readDynamicObjects item).enum = [(0, item.Sourcezones.Objects),
        (1, item.Destinationzones.Objects), (2, item.Sourcenetworks.Objects),
        (3, item.Destinationnetworks.Objects), (4, item.Sourceports.Objects),
        (5, item.Destinationports.Objects), (6, item.Urls.Objects)] := rfl
    rw [e] at hp
    simp only [List.mem_cons, List.mem_singleton, List.not_mem_nil, or_false] at hp
    rcases hp with rfl | rfl | rfl | rfl | rfl | rfl | rfl <;> exact ⟨_, rfl⟩
  · intro hd
    obtain ⟨n1, n2, n3, n4, n5, n6, n7, _⟩ := (listsAreStrings_iff d).1 hd
    exact ⟨_, createLoop_eq d n1 n2 n3 n4 n5 n6 n7⟩
  · intro acp rule vars d1 hr hv hl
    obtain ⟨hd, _, hrule⟩ := createRequest_some t d acp rule hr
    obtain ⟨n1, n2, n3, n4, n5, n6, n7, _⟩ := (listsAreStrings_iff d).1 hd
    rw [createLoop_eq d n1 n2 n3 n4 n5 n6 n7] at hv
    rw [readLoop_eq item d0] at hl
    simp only [Option.some.injEq, Prod.mk.injEq, true_and] at hv hl
    subst hv
    subst hl
    subst hrule
    have key : ∀ l : List Elem, Elem.nil ∉ l →
        some l = some (((subConfigsOf (stringsOf l)).map (fun obj => obj.ID)).map Elem.string) := by
      intro l hn
      have h1 : (subConfigsOf (stringsOf l)).map (fun obj => obj.ID) = stringsOf l :=
        subConfigIDs_subConfigsOf (stringsOf l)
      rw [h1, map_string_stringsOf l hn]
    intro p hp
    simp only [List.mem_cons, List.mem_singleton, List.not_mem_nil, or_false] at hp
    rcases hp with rfl | rfl | rfl | rfl | rfl | rfl | rfl
    · exact ⟨rfl, key _ n1, rfl⟩
    · exact ⟨rfl, key _ n2, rfl⟩
    · exact ⟨rfl, key _ n3, rfl⟩
    · exact ⟨rfl, key _ n4, rfl⟩
    · exact ⟨rfl, key _ n5, rfl⟩
    · exact ⟨rfl, key _ n6, rfl⟩
    · exact ⟨rfl, key _ n7, rfl⟩

/-- C19, at a concrete input: for the scenario record both loops return, and
the source zones of the record land in the variable `sourceZones`. -/
theorem parallel_slices_aligned_scenario :
    ∃ vars, createLoop scenarioRecord createObjTypes.enum CreateVars.nil = some vars ∧
      vars.sourceZones = [{ ID := "z1" }, { ID := "z2" }] := by
  obtain ⟨_, _, _, _, _, _, hret, _⟩ :=
    parallel_slices_aligned plainTables scenarioRecord scenarioRecord scenarioItem
  obtain ⟨vars, hv⟩ := hret scenarioRecord_listsAreStrings
  refine ⟨vars, hv, ?_⟩
  have h0 : createLoop scenarioRecord createObjTypes.enum CreateVars.nil =
      some { sourceZones := [{ ID := "z1" }, { ID := "z2" }], destinationZones := [],
             sourceNetworks := [], destinationNetworks := [], sourcePorts := [],
             destinationPorts := [], urls := [] } := rfl
  rw [h0] at hv
  simp only [Option.some.injEq] at hv
  rw [← hv]

end Fmc
